import Mathlib

/-!
Shallow embedding of the pyswan `oceanwaves.py` module.

Modelling conventions:
* numpy float arrays become `List ℝ` (1-D), `List (List ℝ)` (2-D), and so on;
  float arithmetic is modelled by exact real arithmetic.
* `np.nan` placeholders in freshly constructed containers are modelled by `0`
  (no claim inspects those placeholder values, only shapes).
* A Python value that may be `None` or an array or a scalar is modelled by
  `PyVal`; a computation that may raise is modelled by `Except String`;
  text printed by `print(...)` is modelled by a `List String` of messages.
* `np.inf`, which appears as the default `fmax` bound of `Hm0`, is modelled by
  the two-constructor type `PFloat` (a real number, or plus infinity).
-/

open scoped Classical

noncomputable section

/-- Last element of a real list, `0` for the empty list. -/
def lastD : List ℝ → ℝ
  | [] => 0
  | [a] => a
  | _ :: b :: l => lastD (b :: l)

/-- The list is strictly increasing (adjacent comparisons). -/
def sortedLt : List ℝ → Prop
  | x0 :: x1 :: xs => x0 < x1 ∧ sortedLt (x1 :: xs)
  | _ => True

/-- The list is nondecreasing (adjacent comparisons). -/
def sortedLe : List ℝ → Prop
  | x0 :: x1 :: xs => x0 ≤ x1 ∧ sortedLe (x1 :: xs)
  | _ => True

/-- All entries are strictly positive. -/
def allPos : List ℝ → Prop
  | [] => True
  | a :: l => 0 < a ∧ allPos l

/-- All entries are nonnegative. -/
def nonnegL : List ℝ → Prop
  | [] => True
  | a :: l => 0 ≤ a ∧ nonnegL l

/-- Some entry is strictly positive. -/
def existsPosL : List ℝ → Prop
  | [] => False
  | a :: l => 0 < a ∨ existsPosL l

/-- np.trapz(y, x): composite trapezoidal rule over the sample points `x`. -/
def trapz : List ℝ → List ℝ → ℝ
  | y0 :: y1 :: ys, x0 :: x1 :: xs =>
      (x1 - x0) * (y0 + y1) / 2 + trapz (y1 :: ys) (x1 :: xs)
  | _, _ => 0

/-- Helper for `cumtrapz`: running trapezoidal sums starting from `acc`. -/
def cumAux : ℝ → List ℝ → List ℝ → List ℝ
  | acc, y0 :: y1 :: ys, x0 :: x1 :: xs =>
      (acc + (x1 - x0) * (y0 + y1) / 2) ::
        cumAux (acc + (x1 - x0) * (y0 + y1) / 2) (y1 :: ys) (x1 :: xs)
  | _, _, _ => []

/-- scipy.integrate.cumtrapz(y, x, initial=0): cumulative trapezoidal
integral, one value per sample of `x`, starting at `0`. -/
def cumtrapz (y x : List ℝ) : List ℝ := 0 :: cumAux 0 y x

/-- np.interp(v, xp, fp): piecewise-linear interpolation with clamping to the
first / last value of `fp` outside the sampled range of `xp`. -/
def interp (v : ℝ) : List ℝ → List ℝ → ℝ
  | [_], [y0] => y0
  | x0 :: x1 :: xs, y0 :: y1 :: ys =>
      if v ≤ x0 then y0
      else if v ≤ x1 then y0 + (y1 - y0) * (v - x0) / (x1 - x0)
      else interp v (x1 :: xs) (y1 :: ys)
  | _, _ => 0

/-- A Python float argument that may be `np.inf` (the default `fmax`). -/
inductive PFloat where
  | real : ℝ → PFloat
  | inf : PFloat

/-- Order on `PFloat` (real order, with `inf` on top). -/
def pfLe : PFloat → PFloat → Prop
  | .real a, .real b => a ≤ b
  | _, .inf => True
  | .inf, .real _ => False

/-- np.interp evaluated at a possibly-infinite query point: `np.interp` clamps
any query above the last sample to the last value of `fp`, which is what an
infinite query yields. -/
def interpP : PFloat → List ℝ → List ℝ → ℝ
  | .real r, xp, fp => interp r xp fp
  | .inf, _, fp => lastD fp

/-- The zeroth-moment value computed by `Hm0` for one (t,x) cell of energy `E`:
the full-band trapezoidal integral when `(fmin, fmax)` is exactly the default
pair `(0, np.inf)`, otherwise the difference of the interpolated cumulative
integral at `fmax` and at `fmin`. -/
def m0k (f E : List ℝ) (fmin fmax : PFloat) : ℝ :=
  if fmin = PFloat.real 0 ∧ fmax = PFloat.inf then trapz E f
  else interpP fmax f (cumtrapz E f) - interpP fmin f (cumtrapz E f)

/-- The `Tm01` value computed for one cell: `m0 / m1` with trapezoidal
moments (`energy*f` is the elementwise product in the source). -/
def Tm01k (f E : List ℝ) : ℝ :=
  trapz E f / trapz (List.zipWith (fun e v => e * v) E f) f

/-- The `Tm02` value computed for one cell: `sqrt (m0 / m2)`. -/
def Tm02k (f E : List ℝ) : ℝ :=
  Real.sqrt (trapz E f / trapz (List.zipWith (fun e v => e * v ^ 2) E f) f)

/-- np.max over a list (numpy errors on empties; `0` stands for that case,
never reached under the well-formedness hypotheses used below). -/
def listMax : List ℝ → ℝ
  | [] => 0
  | a :: l => l.foldl max a

/-- Helper for `argmaxIdx`: first index of the maximal entry. -/
def argmaxAux : ℝ → Nat → Nat → List ℝ → Nat
  | _, bi, _, [] => bi
  | best, bi, i, a :: l =>
      if best < a then argmaxAux a i (i + 1) l else argmaxAux best bi (i + 1) l

/-- np.argmax over a flattened list: index of the first maximal entry. -/
def argmaxIdx : List ℝ → Nat
  | [] => 0
  | a :: l => argmaxAux a 0 1 l

/-- Columnwise maximum of a (rectangular) matrix: np.max(·, axis=0). -/
def colMax : List (List ℝ) → List ℝ
  | [] => []
  | r :: rs => rs.foldl (fun acc row => List.zipWith max acc row) r

/-- The `method` keyword of `jonswap`. -/
inductive JMethod where
  | Yamaguchi
  | Goda

/-- The empirical alpha coefficient selected by `method` in `jonswap`. -/
def jalpha (γ : ℝ) : JMethod → ℝ
  | .Yamaguchi => 1 / (0.06533 * γ ^ (0.8015 : ℝ) + 0.13467) / 16
  | .Goda => 1 / (0.23 + 0.03 * γ - 0.185 * (1.9 + γ)⁻¹) / 16

/-- The sigma step function of `jonswap`: `sa` everywhere, `sb` where
`f > fpeak`. -/
def jsigma (fi fpeak sa sb : ℝ) : ℝ := if fpeak < fi then sb else sa

/-- The unnormalized JONSWAP density at a single frequency `fi`:
Pierson-Moskowitz base shape times the peak-enhancement factor. -/
def jshape (Hm0 Tp γ : ℝ) (method : JMethod) (sa sb : ℝ) (fi : ℝ) : ℝ :=
  jalpha γ method * Hm0 ^ 2 * Tp ^ (-4 : ℤ) * fi ^ (-5 : ℤ) *
      Real.exp (-1.25 * (Tp * fi) ^ (-4 : ℤ)) *
    γ ^ Real.exp (-0.5 * (Tp * fi - 1) ^ 2 / jsigma fi (1 / Tp) sa sb ^ 2)

/-- jonswap(f, Hm0, Tp, g, gamma, method, normalize, sa, sb): the 1-D JONSWAP
energy density sampled on `f`; when `normalize` is true the result is rescaled
by `Hm0^2 / (16 * trapz E f)`.  (`g` is accepted and unused, as in the
source.) -/
def jonswap (f : List ℝ) (Hm0 Tp g γ : ℝ) (method : JMethod)
    (normalize : Bool) (sa sb : ℝ) : List ℝ :=
  let E := f.map (jshape Hm0 Tp γ method sa sb)
  if normalize then
    let corr := Hm0 ^ 2 / (16 * trapz E f)
    E.map (fun v => v * corr)
  else E

/-- The A1 normalization constant of `directional_spreading`. -/
def A1 (ms : ℝ) : ℝ :=
  2 ^ ms * Real.Gamma (ms / 2 + 1) ^ 2 / (Real.pi * Real.Gamma (ms + 1))

/-- The raw cosine-power weights loop of `directional_spreading` (inputs
already in radians): `A1 * max(cos^ms, 1e-10)` where `cos > 0`, else `0`. -/
def cdirOf (dirs : List ℝ) (pdir ms : ℝ) : List ℝ :=
  dirs.map (fun d =>
    if 0 < Real.cos (d - pdir) then A1 ms * max (Real.cos (d - pdir) ^ ms) 1e-10
    else 0)

/-- directional_spreading(dirs, pdir, ms, units): converts degree inputs to
radians, applies the cosine-power kernel, and rescales degree results by
pi/180; an unrecognized unit tag raises. -/
def directional_spreading (dirs : List ℝ) (pdir ms : ℝ) (units : String) :
    Except String (List ℝ) :=
  if units.take 3 = "deg" then
    .ok ((cdirOf (dirs.map (fun d => d * (Real.pi / 180))) (pdir * (Real.pi / 180)) ms).map
      (fun c => c * (Real.pi / 180)))
  else if units.take 3 = "rad" then
    .ok (cdirOf dirs pdir ms)
  else .error "unknown units"

/-- A Python value as stored in a `Spec0` parameter slot: `None`, a scalar,
or a 2-D array. -/
inductive PyVal where
  | pynone : PyVal
  | num : ℝ → PyVal
  | arr2 : List (List ℝ) → PyVal

/-- The numpy shape of a 2-D `PyVal` array (if rectangular); `None`-valued and
scalar results have no 2-D shape. -/
def PyVal.shape2? : PyVal → Option (Nat × Nat)
  | .arr2 a =>
      if a.all (fun r => r.length == (a.headD []).length) then
        some (a.length, (a.headD []).length)
      else Option.none
  | _ => Option.none

/-- Whether a `PyVal` is a bare scalar. -/
def PyVal.isNum : PyVal → Bool
  | .num _ => true
  | _ => false

/-- Entry (i, j) of a 2-D `PyVal` array (0 outside / for non-arrays). -/
def arr2At : PyVal → Nat → Nat → ℝ
  | .arr2 a, i, j => (a.getD i []).getD j 0
  | _, _, _ => 0

/-- Entry (i, j) of the result of a reduction (0 when the reduction raised). -/
def resAt (r : List String × Except String PyVal) (i j : Nat) : ℝ :=
  match r.2 with
  | .ok p => arr2At p i j
  | .error _ => 0

/-- Rank-1 spectral container (class Spec1). -/
structure Spec1 where
  f : List ℝ
  t : List ℝ
  x : List ℝ
  y : List ℝ
  lon : List ℝ
  lat : List ℝ
  source : String
  energy_units : String
  direction_units : String
  spreading_units : String
  energy : List (List (List ℝ))
  direction : List (List (List ℝ))
  spreading : List (List (List ℝ))

/-- Rank-2 spectral container (class Spec2). -/
structure Spec2 where
  f : List ℝ
  direction : List ℝ
  t : List ℝ
  x : List ℝ
  y : List ℝ
  lon : List ℝ
  lat : List ℝ
  source : String
  energy_units : String
  direction_units : String
  energy : List (List (List (List ℝ)))

/-- A constant (nt, nxy, nf) array; stands for the `np.nan*np.zeros(...)`
defaults of the constructors. -/
def cube3 (n1 n2 n3 : Nat) (v : ℝ) : List (List (List ℝ)) :=
  List.replicate n1 (List.replicate n2 (List.replicate n3 v))

/-- A constant (nt, nxy, nf, nd) array. -/
def cube4 (n1 n2 n3 n4 : Nat) (v : ℝ) : List (List (List (List ℝ))) :=
  List.replicate n1 (List.replicate n2 (List.replicate n3 (List.replicate n4 v)))

/-- Whether a nested list is a rectangular array of shape (n1, n2, n3). -/
def isShape3 (a : List (List (List ℝ))) (n1 n2 n3 : Nat) : Bool :=
  a.length == n1 && a.all (fun r => r.length == n2 && r.all (fun q => q.length == n3))

/-- Whether a nested list is a rectangular array of shape (n1, n2, n3, n4). -/
def isShape4 (a : List (List (List (List ℝ)))) (n1 n2 n3 n4 : Nat) : Bool :=
  a.length == n1 && a.all (fun r => isShape3 r n2 n3 n4)

/-- The leading shape of a nested 3-level list, as numpy would report it for a
rectangular array. -/
def shape3 (a : List (List (List ℝ))) : Nat × Nat × Nat :=
  (a.length, (a.headD []).length, ((a.headD []).headD []).length)

/-- The leading shape of a nested 4-level list. -/
def shape4 (a : List (List (List (List ℝ)))) : Nat × Nat × Nat × Nat :=
  (a.length, (a.headD []).length, ((a.headD []).headD []).length,
    (((a.headD []).headD []).headD []).length)

/-- Render a 3-tuple shape the way the exception message shows it. -/
def shapeStr3 (s : Nat × Nat × Nat) : String :=
  "(" ++ toString s.1 ++ ", " ++ toString s.2.1 ++ ", " ++ toString s.2.2 ++ ")"

/-- Render a 4-tuple shape. -/
def shapeStr4 (s : Nat × Nat × Nat × Nat) : String :=
  "(" ++ toString s.1 ++ ", " ++ toString s.2.1 ++ ", " ++ toString s.2.2.1 ++
    ", " ++ toString s.2.2.2 ++ ")"

/-- Spec1.__init__: fills defaulted axes and arrays, then validates each
optionally supplied array against the axes-implied shape (nt, nxy, nf),
raising a shape-mismatch `Exception` on the first mismatch. -/
def mkSpec1 (f t x lon : List ℝ) (energy_units : Option String)
    (energy direction spreading : Option (List (List (List ℝ)))) :
    Except String Spec1 :=
  let nt := t.length
  let nxy := max x.length lon.length
  let nf := f.length
  let e := energy.getD (cube3 nt nxy nf 0)
  if isShape3 e nt nxy nf then
    let d := direction.getD (cube3 nt nxy nf 0)
    if isShape3 d nt nxy nf then
      let s := spreading.getD (cube3 nt nxy nf 0)
      if isShape3 s nt nxy nf then
        .ok { f := f, t := t, x := x, y := [0], lon := lon, lat := [0],
              source := "",
              energy_units := energy_units.getD "m2/Hz/deg",
              direction_units := "degrees_north", spreading_units := "degr",
              energy := e, direction := d, spreading := s }
      else
        .error ("dimensions E " ++ shapeStr3 (shape3 s) ++
          " do not match t,x,f " ++ shapeStr3 (nt, nxy, nf))
    else
      .error ("dimensions E " ++ shapeStr3 (shape3 d) ++
        " do not match t,x,f " ++ shapeStr3 (nt, nxy, nf))
  else
    .error ("dimensions E " ++ shapeStr3 (shape3 e) ++
      " do not match t,x,f " ++ shapeStr3 (nt, nxy, nf))

/-- Spec2.__init__: validates an optionally supplied energy array against the
axes-implied shape (nt, nxy, nf, nd). -/
def mkSpec2 (f direction t x lon : List ℝ) (energy_units : Option String)
    (energy : Option (List (List (List (List ℝ))))) : Except String Spec2 :=
  let nt := t.length
  let nxy := max x.length lon.length
  let nf := f.length
  let nd := direction.length
  let e := energy.getD (cube4 nt nxy nf nd 0)
  if isShape4 e nt nxy nf nd then
    .ok { f := f, direction := direction, t := t, x := x, y := [0], lon := lon,
          lat := [0], source := "",
          energy_units := energy_units.getD "m2/Hz/deg",
          direction_units := "degrees_north", energy := e }
  else
    .error ("dimensions E " ++ shapeStr4 (shape4 e) ++
      " do not match t,x,f,direction " ++ shapeStr4 (nt, nxy, nf, nd))

/-- Spec1.Hm0(fmin, fmax): checks the exact units tag `m2/Hz`; in the known
branch the `(0, np.inf)` / frequency-range split of the source is expressed
per cell by `m0k`.  The unknown-units branch prints a diagnostic, sets
`m0 = None`, and then evaluates `4*np.sqrt(None)`, which raises. -/
def Spec1.Hm0 (S : Spec1) (fmin fmax : PFloat) :
    List String × Except String PyVal :=
  if S.energy_units = "m2/Hz" then
    ([], .ok (.arr2 (S.energy.map (fun row =>
      row.map (fun E => 4 * Real.sqrt (m0k S.f E fmin fmax))))))
  else
    (["unknown units " ++ S.energy_units],
      .error "TypeError: ufunc sqrt does not support NoneType")

/-- Spec1.Tm01: `m0/m1` per cell; on a units mismatch prints and returns
`None`. -/
def Spec1.Tm01 (S : Spec1) : List String × Except String PyVal :=
  if S.energy_units.take 9 = "m2/Hz" then
    ([], .ok (.arr2 (S.energy.map (fun row => row.map (fun E => Tm01k S.f E)))))
  else (["unknown units " ++ S.energy_units], .ok .pynone)

/-- Spec1.Tm02: `sqrt(m0/m2)` per cell; on a units mismatch prints and
returns `None`. -/
def Spec1.Tm02 (S : Spec1) : List String × Except String PyVal :=
  if S.energy_units.take 9 = "m2/Hz" then
    ([], .ok (.arr2 (S.energy.map (fun row => row.map (fun E => Tm02k S.f E)))))
  else (["unknown units " ++ S.energy_units], .ok .pynone)

/-- Spec1.Tp: `1/f[np.argmax(energy)]` with the argmax over the flattened
energy array; the flat index is applied to `f`, which can be out of bounds
(IndexError). -/
def Spec1.TpIdx (S : Spec1) : Nat := argmaxIdx (S.energy.flatten.flatten)

def Spec1.Tp (S : Spec1) : List String × Except String PyVal :=
  if S.energy_units.take 9 = "m2/Hz" then
    if h : S.TpIdx < S.f.length then ([], .ok (.num (1 / S.f.get ⟨S.TpIdx, h⟩)))
    else ([], .error "IndexError: index out of bounds for axis f")
  else (["unknown units " ++ S.energy_units], .ok .pynone)

/-- Spec2: integrate out the direction axis, taking the absolute value (a
descending direction axis sign-flips the partial integral). -/
def Spec2.spec1 (S : Spec2) : List (List (List ℝ)) :=
  S.energy.map (fun a => a.map (fun b => b.map (fun Ed => |trapz Ed S.direction|)))

/-- Spec2.Hm0(fmin, fmax): direction-integrated density, then the same
full-band / frequency-range split as Spec1.Hm0; unknown units raise through
`4*np.sqrt(None)`. -/
def Spec2.Hm0 (S : Spec2) (fmin fmax : PFloat) :
    List String × Except String PyVal :=
  if S.energy_units.take 9 = "m2/Hz/deg" then
    ([], .ok (.arr2 (S.spec1.map (fun row =>
      row.map (fun Ef => 4 * Real.sqrt (m0k S.f Ef fmin fmax))))))
  else
    (["unknown units " ++ S.energy_units],
      .error "TypeError: ufunc sqrt does not support NoneType")

/-- Spec2.Tm01. -/
def Spec2.Tm01 (S : Spec2) : List String × Except String PyVal :=
  if S.energy_units.take 9 = "m2/Hz/deg" then
    ([], .ok (.arr2 (S.spec1.map (fun row => row.map (fun Ef => Tm01k S.f Ef)))))
  else (["unknown units " ++ S.energy_units], .ok .pynone)

/-- Spec2.Tm02. -/
def Spec2.Tm02 (S : Spec2) : List String × Except String PyVal :=
  if S.energy_units.take 9 = "m2/Hz/deg" then
    ([], .ok (.arr2 (S.spec1.map (fun row => row.map (fun Ef => Tm02k S.f Ef)))))
  else (["unknown units " ++ S.energy_units], .ok .pynone)

/-- Spec2.Tp: `1/f[np.argmax(np.max(energy, axis=-1))]`; the argmax runs over
the flattened (nt, nxy, nf) array of direction-maxima and indexes `f`. -/
def Spec2.TpIdx (S : Spec2) : Nat :=
  argmaxIdx (((S.energy.map (fun a => a.map (fun b => b.map listMax))).flatten).flatten)

def Spec2.Tp (S : Spec2) : List String × Except String PyVal :=
  if S.energy_units.take 9 = "m2/Hz/deg" then
    if h : S.TpIdx < S.f.length then ([], .ok (.num (1 / S.f.get ⟨S.TpIdx, h⟩)))
    else ([], .error "IndexError: index out of bounds for axis f")
  else (["unknown units " ++ S.energy_units], .ok .pynone)

def Spec2.pdirIdx (S : Spec2) : Nat :=
  argmaxIdx (((S.energy.map (fun a => a.map colMax)).flatten).flatten)

/-- Spec2.pdir: `direction[np.argmax(np.max(energy, axis=-2))]`; the argmax
runs over the flattened (nt, nxy, nd) array of frequency-maxima and indexes
the direction axis. -/
def Spec2.pdir (S : Spec2) : List String × Except String PyVal :=
  if S.energy_units.take 9 = "m2/Hz/deg" then
    if h : S.pdirIdx < S.direction.length then
      ([], .ok (.num (S.direction.get ⟨S.pdirIdx, h⟩)))
    else ([], .error "IndexError: index out of bounds for axis direction")
  else (["unknown units " ++ S.energy_units], .ok .pynone)

/-- Spec1.from_jonswap: fills every (t, x) cell with the same 1-D JONSWAP
row, sets constant spreading/direction meta-arrays, and tags the units
`m2/Hz`. -/
def Spec1.from_jonswap (S : Spec1) (Hm0 Tp pdir ms g γ : ℝ) (method : JMethod)
    (normalize : Bool) (sa sb : ℝ) : Spec1 :=
  let nxy := max S.x.length S.lon.length
  let E1 := jonswap S.f Hm0 Tp g γ method normalize sa sb
  let newE := S.t.map (fun _ => (List.range nxy).map (fun _ => E1))
  { S with
      energy := newE
      spreading := newE.map (fun a => a.map (fun b => b.map (fun _ => ms)))
      direction := newE.map (fun a => a.map (fun b => b.map (fun _ => pdir)))
      energy_units := "m2/Hz" }

/-- Spec2.from_jonswap: per (t, x, f) cell the directional kernel (computed
with the default unit tag "deg") times the 1-D JONSWAP value; tags the units
`m2/Hz/deg`. -/
def Spec2.from_jonswap (S : Spec2) (Hm0 Tp pdir ms g γ : ℝ) (method : JMethod)
    (normalize : Bool) (sa sb : ℝ) : Spec2 :=
  let nxy := max S.x.length S.lon.length
  let E1 := jonswap S.f Hm0 Tp g γ method normalize sa sb
  let cdir := (cdirOf (S.direction.map (fun d => d * (Real.pi / 180)))
      (pdir * (Real.pi / 180)) ms).map (fun c => c * (Real.pi / 180))
  { S with
      energy := S.t.map (fun _ => (List.range nxy).map (fun _ =>
        E1.map (fun e => cdir.map (fun c => c * e))))
      energy_units := "m2/Hz/deg" }

/-- Rank-0 container (class Spec0): scalar-parameter slots plus shared
metadata. -/
structure Spec0 where
  source : String
  x : List ℝ
  y : List ℝ
  lon : List ℝ
  lat : List ℝ
  t : List ℝ
  Hs : PyVal
  Tp : PyVal
  Tm01 : PyVal
  Tm02 : PyVal
  pdir : PyVal
  ms : PyVal

/-- Sequencing of reduction calls: run the next step when the previous one
did not raise, accumulating printed messages; propagate a raised exception. -/
def stepE {α β : Type} (r : List String × Except String α)
    (k : α → List String × Except String β) : List String × Except String β :=
  match r.2 with
  | .error e => (r.1, .error e)
  | .ok v => (r.1 ++ (k v).1, (k v).2)

/-- Spec0.from_Spec applied to a rank-2 container: copies metadata and calls
Hm0(), Tp(), Tm01(), Tm02(), pdir() in sequence; `ms` keeps its `[[]]`
construction default.  Any exception raised by a reduction propagates. -/
def Spec0.from_Spec2 (S : Spec2) : List String × Except String Spec0 :=
  stepE (S.Hm0 (PFloat.real 0) PFloat.inf) (fun hsv =>
    stepE S.Tp (fun tpv =>
      stepE S.Tm01 (fun t01v =>
        stepE S.Tm02 (fun t02v =>
          stepE S.pdir (fun pdv =>
            ([], .ok { source := S.source, x := S.x, y := S.y, lon := S.lon,
                       lat := S.lat, t := S.t, Hs := hsv, Tp := tpv,
                       Tm01 := t01v, Tm02 := t02v, pdir := pdv,
                       ms := PyVal.arr2 [[]] }))))))

/-- Spec0.from_Spec applied to a rank-1 container: after Hm0/Tp/Tm01/Tm02 it
evaluates `Spec.pdir()`, but class Spec1 defines no `pdir` method, so the call
raises AttributeError. -/
def Spec0.from_Spec1 (S : Spec1) : List String × Except String Spec0 :=
  stepE (S.Hm0 (PFloat.real 0) PFloat.inf) (fun _ =>
    stepE S.Tp (fun _ =>
      stepE S.Tm01 (fun _ =>
        stepE S.Tm02 (fun _ =>
          ([], .error "AttributeError: Spec1 object has no attribute pdir")))))

/-- Reverse the direction axis of a rank-2 container, reversing the energy
array along its direction dimension correspondingly. -/
def Spec2.reverseDirection (S : Spec2) : Spec2 :=
  { S with
      direction := S.direction.reverse
      energy := S.energy.map (fun a => a.map (fun b => b.map List.reverse)) }

/-- The spreading weight exactly as the specification words it: A1 times
`max(cos(theta - thetap)^s, 1e-10)` where the cosine is positive and `0`
elsewhere, directions converted to radians, result rescaled by pi/180. -/
def spreadSpecWeight (pdir ms θ : ℝ) : ℝ :=
  (Real.pi / 180) *
    (if 0 < Real.cos ((θ - pdir) * (Real.pi / 180)) then
      A1 ms * max (Real.cos ((θ - pdir) * (Real.pi / 180)) ^ ms) 1e-10
    else 0)

end

/-! ### Basic lemmas about the trapezoidal rule -/

theorem sortedLt_sortedLe : ∀ x : List ℝ, sortedLt x → sortedLe x
  | [], _ => trivial
  | [_], _ => trivial
  | _ :: x1 :: xs, h => ⟨le_of_lt h.1, sortedLt_sortedLe (x1 :: xs) h.2⟩

theorem allPos_nonnegL : ∀ y : List ℝ, allPos y → nonnegL y
  | [], _ => trivial
  | a :: l, h => ⟨le_of_lt h.1, allPos_nonnegL l h.2⟩

theorem allPos_map (g : ℝ → ℝ) (hg : ∀ a : ℝ, 0 < a → 0 < g a) :
    ∀ l : List ℝ, allPos l → allPos (l.map g)
  | [], _ => trivial
  | a :: l, h => ⟨hg a h.1, allPos_map g hg l h.2⟩

theorem trapz_map_mul (c : ℝ) : ∀ y x : List ℝ,
    trapz (y.map (fun v => v * c)) x = c * trapz y x
  | y0 :: y1 :: ys, x0 :: x1 :: xs => by
      have IH := trapz_map_mul c (y1 :: ys) (x1 :: xs)
      simp only [List.map_cons] at IH ⊢
      simp only [trapz]
      rw [IH]; ring
  | [], x => by simp [trapz]
  | [y0], x => by cases x <;> simp [trapz]
  | y0 :: y1 :: ys, [] => by simp [trapz]
  | y0 :: y1 :: ys, [x0] => by simp [trapz]

theorem trapz_nonneg : ∀ y x : List ℝ, sortedLe x → nonnegL y → 0 ≤ trapz y x
  | y0 :: y1 :: ys, x0 :: x1 :: xs, hx, hy => by
      have IH := trapz_nonneg (y1 :: ys) (x1 :: xs) hx.2 hy.2
      have h1 : x0 ≤ x1 := hx.1
      have h2 : 0 ≤ y0 := hy.1
      have h3 : 0 ≤ y1 := hy.2.1
      simp only [trapz]
      nlinarith
  | [], x, _, _ => le_rfl
  | [y0], x, _, _ => by cases x <;> exact le_rfl
  | y0 :: y1 :: ys, [], _, _ => le_rfl
  | y0 :: y1 :: ys, [x0], _, _ => le_rfl

theorem trapz_pos : ∀ y x : List ℝ, sortedLt x → allPos y →
    y.length = x.length → 2 ≤ y.length → 0 < trapz y x
  | y0 :: y1 :: ys, x0 :: x1 :: xs, hx, hy, _, _ => by
      have IH : 0 ≤ trapz (y1 :: ys) (x1 :: xs) :=
        trapz_nonneg (y1 :: ys) (x1 :: xs) (sortedLt_sortedLe _ hx.2)
          (allPos_nonnegL _ hy.2)
      have h1 : x0 < x1 := hx.1
      have h2 : 0 < y0 := hy.1
      have h3 : 0 < y1 := hy.2.1
      simp only [trapz]
      nlinarith
  | [], x, _, _, _, h2 => by simp at h2
  | [y0], x, _, _, _, h2 => by simp at h2
  | y0 :: y1 :: ys, [], _, _, hlen, _ => by simp at hlen
  | y0 :: y1 :: ys, [x0], _, _, hlen, _ => by simp at hlen

theorem lastD_cons_cons (a b : ℝ) (l : List ℝ) :
    lastD (a :: b :: l) = lastD (b :: l) := rfl

theorem lastD_concat (a : ℝ) : ∀ l : List ℝ, lastD (l ++ [a]) = a
  | [] => rfl
  | [_] => rfl
  | b :: c :: l => by
      rw [List.cons_append, List.cons_append, lastD_cons_cons,
        ← List.cons_append]
      exact lastD_concat a (c :: l)

theorem lastD_reverse (a : ℝ) (l : List ℝ) : lastD ((a :: l).reverse) = a := by
  rw [List.reverse_cons]; exact lastD_concat a l.reverse

theorem trapz_append (a b : ℝ) : ∀ y x y2 x2 : List ℝ, y.length = x.length →
    trapz ((a :: y) ++ y2) ((b :: x) ++ x2) =
      trapz (a :: y) (b :: x) +
        trapz (lastD (a :: y) :: y2) (lastD (b :: x) :: x2)
  | [], [], y2, x2, _ => by simp [trapz, lastD]
  | y0 :: ys, x0 :: xs, y2, x2, h => by
      have h' : ys.length = xs.length := by simpa using h
      have IH := trapz_append y0 x0 ys xs y2 x2 h'
      simp only [List.cons_append] at IH ⊢
      calc trapz (a :: y0 :: (ys ++ y2)) (b :: x0 :: (xs ++ x2))
          = (x0 - b) * (a + y0) / 2 + trapz (y0 :: (ys ++ y2)) (x0 :: (xs ++ x2)) := by
            simp only [trapz]
        _ = (x0 - b) * (a + y0) / 2 +
              (trapz (y0 :: ys) (x0 :: xs) +
                trapz (lastD (y0 :: ys) :: y2) (lastD (x0 :: xs) :: x2)) := by
            rw [IH]
        _ = trapz (a :: y0 :: ys) (b :: x0 :: xs) +
              trapz (lastD (a :: y0 :: ys) :: y2) (lastD (b :: x0 :: xs) :: x2) := by
            simp only [trapz, lastD_cons_cons]; ring
  | [], x0 :: xs, _, _, h => by simp at h
  | y0 :: ys, [], _, _, h => by simp at h

theorem trapz_reverse : ∀ y x : List ℝ, y.length = x.length →
    trapz y.reverse x.reverse = - trapz y x
  | [], [], _ => by simp [trapz]
  | [a], [b], _ => by simp [trapz]
  | [], b :: xs, h => by simp at h
  | [a], [], h => by simp at h
  | [a], b :: b1 :: xs, h => by simp at h
  | a :: a1 :: ys, [], h => by simp at h
  | a :: a1 :: ys, [b], h => by simp at h
  | a :: a1 :: ys, b :: b1 :: xs, h => by
      have h' : (a1 :: ys).length = (b1 :: xs).length := by simpa using h
      have IH := trapz_reverse (a1 :: ys) (b1 :: xs) h'
      obtain ⟨c, zs, hcz⟩ : ∃ c zs, (a1 :: ys).reverse = c :: zs := by
        cases hrev : (a1 :: ys).reverse with
        | nil => exact absurd hrev (by simp)
        | cons c zs => exact ⟨c, zs, rfl⟩
      obtain ⟨d, ws, hdw⟩ : ∃ d ws, (b1 :: xs).reverse = d :: ws := by
        cases hrev : (b1 :: xs).reverse with
        | nil => exact absurd hrev (by simp)
        | cons d ws => exact ⟨d, ws, rfl⟩
      have hlen : zs.length = ws.length := by
        have hc : ys.length + 1 = zs.length + 1 := by
          simpa using congrArg List.length hcz
        have hd : xs.length + 1 = ws.length + 1 := by
          simpa using congrArg List.length hdw
        simp only [List.length_cons] at h'
        omega
      have hlast1 : lastD (c :: zs) = a1 := by rw [← hcz]; exact lastD_reverse a1 ys
      have hlast2 : lastD (d :: ws) = b1 := by rw [← hdw]; exact lastD_reverse b1 xs
      have e1 : (a :: a1 :: ys).reverse = (c :: zs) ++ [a] := by
        rw [List.reverse_cons, hcz]
      have e2 : (b :: b1 :: xs).reverse = (d :: ws) ++ [b] := by
        rw [List.reverse_cons, hdw]
      rw [e1, e2, trapz_append c d zs ws [a] [b] hlen, hlast1, hlast2,
        ← hcz, ← hdw, IH]
      simp only [trapz]
      ring

/-! ### Lemmas about the cumulative trapezoidal integral -/

theorem sortedLe_cumAux : ∀ (acc : ℝ) (y x : List ℝ), sortedLe x → nonnegL y →
    sortedLe (acc :: cumAux acc y x)
  | acc, y0 :: y1 :: ys, x0 :: x1 :: xs, hx, hy => by
      have IH := sortedLe_cumAux (acc + (x1 - x0) * (y0 + y1) / 2)
        (y1 :: ys) (x1 :: xs) hx.2 hy.2
      have h1 : x0 ≤ x1 := hx.1
      have h2 : 0 ≤ y0 := hy.1
      have h3 : 0 ≤ y1 := hy.2.1
      refine ⟨by nlinarith, IH⟩
  | acc, [], x, _, _ => trivial
  | acc, [y0], x, _, _ => by cases x <;> trivial
  | acc, y0 :: y1 :: ys, [], _, _ => trivial
  | acc, y0 :: y1 :: ys, [x0], _, _ => trivial

theorem lastD_cumAux : ∀ (acc : ℝ) (y x : List ℝ),
    lastD (acc :: cumAux acc y x) = acc + trapz y x
  | acc, y0 :: y1 :: ys, x0 :: x1 :: xs => by
      have IH := lastD_cumAux (acc + (x1 - x0) * (y0 + y1) / 2)
        (y1 :: ys) (x1 :: xs)
      calc lastD (acc :: cumAux acc (y0 :: y1 :: ys) (x0 :: x1 :: xs))
          = lastD ((acc + (x1 - x0) * (y0 + y1) / 2) ::
              cumAux (acc + (x1 - x0) * (y0 + y1) / 2) (y1 :: ys) (x1 :: xs)) := rfl
        _ = acc + (x1 - x0) * (y0 + y1) / 2 + trapz (y1 :: ys) (x1 :: xs) := IH
        _ = acc + trapz (y0 :: y1 :: ys) (x0 :: x1 :: xs) := by
            simp only [trapz]; ring
  | acc, [], x => by simp [cumAux, lastD, trapz]
  | acc, [y0], x => by cases x <;> simp [cumAux, lastD, trapz]
  | acc, y0 :: y1 :: ys, [] => by simp [cumAux, lastD, trapz]
  | acc, y0 :: y1 :: ys, [x0] => by simp [cumAux, lastD, trapz]

theorem lastD_cumtrapz (y x : List ℝ) : lastD (cumtrapz y x) = trapz y x := by
  simpa [cumtrapz] using lastD_cumAux 0 y x

theorem length_cumAux_cons : ∀ (acc : ℝ) (y x : List ℝ),
    y.length = x.length → x ≠ [] → (acc :: cumAux acc y x).length = x.length
  | acc, [y0], [x0], _, _ => by simp [cumAux]
  | acc, y0 :: y1 :: ys, x0 :: x1 :: xs, h, _ => by
      have IH := length_cumAux_cons (acc + (x1 - x0) * (y0 + y1) / 2)
        (y1 :: ys) (x1 :: xs) (by simpa using h) (by simp)
      simp only [cumAux, List.length_cons] at IH ⊢
      omega
  | acc, [], [], _, hne => absurd rfl hne
  | acc, [], x0 :: xs, h, _ => by simp at h
  | acc, [y0], x0 :: x1 :: xs, h, _ => by simp at h
  | acc, y0 :: y1 :: ys, [], h, _ => by simp at h
  | acc, y0 :: y1 :: ys, [x0], h, _ => by simp at h

theorem length_cumtrapz (y x : List ℝ) (h : y.length = x.length) (hne : x ≠ []) :
    (cumtrapz y x).length = x.length := by
  simpa [cumtrapz] using length_cumAux_cons 0 y x h hne

theorem sortedLe_cumtrapz (y x : List ℝ) (hx : sortedLe x) (hy : nonnegL y) :
    sortedLe (cumtrapz y x) := by
  simpa [cumtrapz] using sortedLe_cumAux 0 y x hx hy

theorem headD_cumtrapz (y x : List ℝ) : (cumtrapz y x).headD 0 = 0 := rfl

/-! ### Lemmas about np.interp -/

theorem sortedLe_headD_lastD : ∀ y : List ℝ, sortedLe y → 1 ≤ y.length →
    y.headD 0 ≤ lastD y
  | [y0], _, _ => le_rfl
  | y0 :: y1 :: ys, hy, _ => by
      have IH := sortedLe_headD_lastD (y1 :: ys) hy.2 (by simp)
      calc y0 ≤ y1 := hy.1
        _ ≤ lastD (y1 :: ys) := IH
        _ = lastD (y0 :: y1 :: ys) := (lastD_cons_cons _ _ _).symm
  | [], _, h => by simp at h

theorem interp_ge_head : ∀ (v : ℝ) (x y : List ℝ), sortedLt x → sortedLe y →
    x.length = y.length → 1 ≤ x.length → y.headD 0 ≤ interp v x y
  | v, [x0], [y0], _, _, _, _ => le_rfl
  | v, x0 :: x1 :: xs, y0 :: y1 :: ys, hx, hy, hlen, _ => by
      by_cases h1 : v ≤ x0
      · simp only [interp, if_pos h1]; exact le_rfl
      · by_cases h2 : v ≤ x1
        · simp only [interp, if_neg h1, if_pos h2, List.headD_cons]
          have hx01 : (0:ℝ) < x1 - x0 := by have := hx.1; linarith
          have hy01 : (0:ℝ) ≤ y1 - y0 := by have := hy.1; linarith
          have hv : (0:ℝ) ≤ v - x0 := by push_neg at h1; linarith
          have : 0 ≤ (y1 - y0) * (v - x0) / (x1 - x0) :=
            div_nonneg (mul_nonneg hy01 hv) (le_of_lt hx01)
          linarith
        · have IH := interp_ge_head v (x1 :: xs) (y1 :: ys) hx.2 hy.2
            (by simpa using hlen) (by simp)
          simp only [interp, if_neg h1, if_neg h2, List.headD_cons] at IH ⊢
          calc y0 ≤ y1 := hy.1
            _ ≤ _ := IH
  | v, [], y, _, _, _, h => by simp at h
  | v, [x0], [], _, _, hlen, _ => by simp at hlen
  | v, [x0], y0 :: y1 :: ys, _, _, hlen, _ => by simp at hlen
  | v, x0 :: x1 :: xs, [], _, _, hlen, _ => by simp at hlen
  | v, x0 :: x1 :: xs, [y0], _, _, hlen, _ => by simp at hlen

theorem interp_le_last : ∀ (v : ℝ) (x y : List ℝ), sortedLt x → sortedLe y →
    x.length = y.length → 1 ≤ x.length → interp v x y ≤ lastD y
  | v, [x0], [y0], _, _, _, _ => le_rfl
  | v, x0 :: x1 :: xs, y0 :: y1 :: ys, hx, hy, hlen, _ => by
      have hstep : lastD (y0 :: y1 :: ys) = lastD (y1 :: ys) := lastD_cons_cons _ _ _
      have hhl : y1 ≤ lastD (y1 :: ys) := by
        simpa using sortedLe_headD_lastD (y1 :: ys) hy.2 (by simp)
      by_cases h1 : v ≤ x0
      · simp only [interp, if_pos h1, hstep]
        calc y0 ≤ y1 := hy.1
          _ ≤ _ := hhl
      · by_cases h2 : v ≤ x1
        · simp only [interp, if_neg h1, if_pos h2, hstep]
          have hx01 : (0:ℝ) < x1 - x0 := by have := hx.1; linarith
          have hy01 : (0:ℝ) ≤ y1 - y0 := by have := hy.1; linarith
          have hv : v - x0 ≤ x1 - x0 := by linarith
          have hfrac : (y1 - y0) * (v - x0) / (x1 - x0) ≤ y1 - y0 := by
            rw [div_le_iff₀ hx01]
            nlinarith
          calc y0 + (y1 - y0) * (v - x0) / (x1 - x0) ≤ y0 + (y1 - y0) := by linarith
            _ = y1 := by ring
            _ ≤ _ := hhl
        · have IH := interp_le_last v (x1 :: xs) (y1 :: ys) hx.2 hy.2
            (by simpa using hlen) (by simp)
          simp only [interp, if_neg h1, if_neg h2, hstep]
          exact IH
  | v, [], y, _, _, _, h => by simp at h
  | v, [x0], [], _, _, hlen, _ => by simp at hlen
  | v, [x0], y0 :: y1 :: ys, _, _, hlen, _ => by simp at hlen
  | v, x0 :: x1 :: xs, [], _, _, hlen, _ => by simp at hlen
  | v, x0 :: x1 :: xs, [y0], _, _, hlen, _ => by simp at hlen

theorem interp_mono : ∀ (v w : ℝ) (x y : List ℝ), v ≤ w → sortedLt x →
    sortedLe y → x.length = y.length → interp v x y ≤ interp w x y
  | v, w, [x0], [y0], _, _, _, _ => le_rfl
  | v, w, x0 :: x1 :: xs, y0 :: y1 :: ys, hvw, hx, hy, hlen => by
      by_cases h1 : v ≤ x0
      · have := interp_ge_head w (x0 :: x1 :: xs) (y0 :: y1 :: ys) hx hy hlen
          (by simp)
        simp only [interp, if_pos h1, List.headD_cons] at this ⊢
        exact this
      · have h1w : ¬ w ≤ x0 := fun hc => h1 (le_trans hvw hc)
        have hx01 : (0:ℝ) < x1 - x0 := by have := hx.1; linarith
        have hy01 : (0:ℝ) ≤ y1 - y0 := by have := hy.1; linarith
        by_cases h2 : v ≤ x1
        · by_cases h2w : w ≤ x1
          · simp only [interp, if_neg h1, if_neg h1w, if_pos h2, if_pos h2w]
            have hnum : (y1 - y0) * (v - x0) ≤ (y1 - y0) * (w - x0) := by
              nlinarith
            have hdiv : (y1 - y0) * (v - x0) / (x1 - x0) ≤
                (y1 - y0) * (w - x0) / (x1 - x0) := by
              rw [div_le_div_iff₀ hx01 hx01]
              nlinarith
            linarith
          · have hge := interp_ge_head w (x1 :: xs) (y1 :: ys) hx.2 hy.2
              (by simpa using hlen) (by simp)
            simp only [List.headD_cons] at hge
            simp only [interp, if_neg h1, if_neg h1w, if_pos h2, if_neg h2w]
            have hfrac : (y1 - y0) * (v - x0) / (x1 - x0) ≤ y1 - y0 := by
              rw [div_le_iff₀ hx01]
              nlinarith
            calc y0 + (y1 - y0) * (v - x0) / (x1 - x0) ≤ y0 + (y1 - y0) := by
                  linarith
              _ = y1 := by ring
              _ ≤ _ := hge
        · have h2w : ¬ w ≤ x1 := fun hc => h2 (le_trans hvw hc)
          have IH := interp_mono v w (x1 :: xs) (y1 :: ys) hvw hx.2 hy.2
            (by simpa using hlen)
          simp only [interp, if_neg h1, if_neg h1w, if_neg h2, if_neg h2w]
          exact IH
  | v, w, [], y, _, _, _, _ => le_rfl
  | v, w, [x0], [], _, _, _, _ => le_rfl
  | v, w, [x0], y0 :: y1 :: ys, _, _, _, hlen => by simp at hlen
  | v, w, x0 :: x1 :: xs, [], _, _, _, hlen => by simp at hlen
  | v, w, x0 :: x1 :: xs, [y0], _, _, _, hlen => by simp at hlen

/-! ### Lemmas about the per-cell zeroth moment `m0k` -/

theorem allPos_headD_pos : ∀ f : List ℝ, allPos f → f ≠ [] → 0 < f.headD 0
  | [], _, hne => absurd rfl hne
  | _ :: _, h, _ => h.1

theorem interp_le_head_eq : ∀ (v : ℝ) (x y : List ℝ), v ≤ x.headD 0 →
    1 ≤ x.length → x.length = y.length → interp v x y = y.headD 0
  | v, [x0], [y0], _, _, _ => rfl
  | v, x0 :: x1 :: xs, y0 :: y1 :: ys, h, _, _ => by
      simp only [List.headD_cons] at h ⊢
      simp only [interp, if_pos h]
  | v, [], y, _, h, _ => by simp at h
  | v, [x0], [], _, _, hlen => by simp at hlen
  | v, [x0], y0 :: y1 :: ys, _, _, hlen => by simp at hlen
  | v, x0 :: x1 :: xs, [], _, _, hlen => by simp at hlen
  | v, x0 :: x1 :: xs, [y0], _, _, hlen => by simp at hlen

theorem interp_ge_last_eq : ∀ (v : ℝ) (x y : List ℝ), lastD x ≤ v →
    sortedLt x → 1 ≤ x.length → x.length = y.length → interp v x y = lastD y
  | v, [x0], [y0], _, _, _, _ => rfl
  | v, x0 :: x1 :: xs, y0 :: y1 :: ys, h, hx, _, hlen => by
      cases xs with
      | nil =>
          cases ys with
          | cons y2 ys2 => simp at hlen
          | nil =>
              have hx01 : x0 < x1 := hx.1
              have hlx : lastD [x0, x1] = x1 := rfl
              rw [hlx] at h
              have h1 : ¬ v ≤ x0 := by push_neg; linarith
              by_cases h2 : v ≤ x1
              · have hv : v = x1 := le_antisymm h2 h
                have hne : x1 - x0 ≠ 0 := by linarith
                simp only [interp, if_neg h1, if_pos h2]
                show y0 + (y1 - y0) * (v - x0) / (x1 - x0) = y1
                rw [hv, mul_div_assoc, div_self hne, mul_one]
                ring
              · simp only [interp, if_neg h1, if_neg h2]
                rfl
      | cons x2 xs2 =>
          cases ys with
          | nil => simp at hlen
          | cons y2 ys2 =>
              have hx01 : x0 < x1 := hx.1
              have hx12 : x1 < x2 := hx.2.1
              have hx2l : x2 ≤ lastD (x2 :: xs2) := by
                simpa using sortedLe_headD_lastD (x2 :: xs2)
                  (sortedLt_sortedLe _ hx.2.2) (by simp)
              have hlx : lastD (x0 :: x1 :: x2 :: xs2) = lastD (x2 :: xs2) := rfl
              rw [hlx] at h
              have h1 : ¬ v ≤ x0 := by push_neg; linarith
              have h2 : ¬ v ≤ x1 := by push_neg; linarith
              have IH := interp_ge_last_eq v (x1 :: x2 :: xs2) (y1 :: y2 :: ys2)
                h hx.2 (by simp) (by simpa using hlen)
              simp only [interp, if_neg h1, if_neg h2] at IH ⊢
              rw [IH]
              rfl
  | v, [], y, _, _, h, _ => by simp at h
  | v, [x0], [], _, _, _, hlen => by simp at hlen
  | v, [x0], y0 :: y1 :: ys, _, _, _, hlen => by simp at hlen
  | v, x0 :: x1 :: xs, [], _, _, _, hlen => by simp at hlen
  | v, x0 :: x1 :: xs, [y0], _, _, _, hlen => by simp at hlen

theorem interpP_mono (p q : PFloat) (x y : List ℝ) (hpq : pfLe p q)
    (hx : sortedLt x) (hy : sortedLe y) (hlen : x.length = y.length)
    (h1 : 1 ≤ x.length) : interpP p x y ≤ interpP q x y := by
  cases p with
  | real a =>
      cases q with
      | real b => exact interp_mono a b x y hpq hx hy hlen
      | inf => exact interp_le_last a x y hx hy hlen h1
  | inf =>
      cases q with
      | real b => exact False.elim hpq
      | inf => exact le_rfl

theorem interpP_le_last (p : PFloat) (x y : List ℝ) (hx : sortedLt x)
    (hy : sortedLe y) (hlen : x.length = y.length) (h1 : 1 ≤ x.length) :
    interpP p x y ≤ lastD y := by
  cases p with
  | real a => exact interp_le_last a x y hx hy hlen h1
  | inf => exact le_rfl

theorem interpP_ge_head (p : PFloat) (x y : List ℝ) (hx : sortedLt x)
    (hy : sortedLe y) (hlen : x.length = y.length) (h1 : 1 ≤ x.length) :
    y.headD 0 ≤ interpP p x y := by
  cases p with
  | real a => exact interp_ge_head a x y hx hy hlen h1
  | inf =>
      have hy1 : 1 ≤ y.length := by omega
      cases y with
      | nil => simp at hy1
      | cons b l => exact sortedLe_headD_lastD (b :: l) hy (by simp)

theorem cum_facts (f E : List ℝ) (hf : sortedLt f) (hE : nonnegL E)
    (hlen : E.length = f.length) (hfne : f ≠ []) :
    sortedLe (cumtrapz E f) ∧ f.length = (cumtrapz E f).length ∧
      lastD (cumtrapz E f) = trapz E f :=
  ⟨sortedLe_cumtrapz E f (sortedLt_sortedLe f hf) hE,
   (length_cumtrapz E f hlen hfne).symm, lastD_cumtrapz E f⟩

theorem m0k_full (f E : List ℝ) :
    m0k f E (PFloat.real 0) PFloat.inf = trapz E f := by simp [m0k]

theorem m0k_full_interp (f E : List ℝ) (hf : sortedLt f) (hfp : allPos f)
    (hfne : f ≠ []) (hE : nonnegL E) (hlen : E.length = f.length) :
    interpP PFloat.inf f (cumtrapz E f) -
      interpP (PFloat.real 0) f (cumtrapz E f) = trapz E f := by
  obtain ⟨hcs, hclen, hcl⟩ := cum_facts f E hf hE hlen hfne
  have h1 : 1 ≤ f.length := List.length_pos.mpr hfne
  have hi0 : interpP (PFloat.real 0) f (cumtrapz E f) = 0 := by
    show interp 0 f (cumtrapz E f) = 0
    rw [interp_le_head_eq 0 f (cumtrapz E f)
      (le_of_lt (allPos_headD_pos f hfp hfne)) h1 hclen, headD_cumtrapz]
  show lastD (cumtrapz E f) - _ = _
  rw [hi0, sub_zero, hcl]

theorem m0k_mono_fmax (f E : List ℝ) (fmin fmax1 fmax2 : PFloat)
    (hf : sortedLt f) (hfp : allPos f) (hfne : f ≠ [])
    (hE : nonnegL E) (hlen : E.length = f.length)
    (h12 : pfLe fmax1 fmax2) :
    m0k f E fmin fmax1 ≤ m0k f E fmin fmax2 := by
  obtain ⟨hcs, hclen, hcl⟩ := cum_facts f E hf hE hlen hfne
  have h1 : 1 ≤ f.length := List.length_pos.mpr hfne
  by_cases hc1 : fmin = PFloat.real 0 ∧ fmax1 = PFloat.inf
  · have h2 : fmax2 = PFloat.inf := by
      cases fmax2 with
      | inf => rfl
      | real b => rw [hc1.2] at h12; exact False.elim h12
    rw [hc1.1, hc1.2, h2]
  · by_cases hc2 : fmin = PFloat.real 0 ∧ fmax2 = PFloat.inf
    · rw [m0k, if_neg hc1, m0k, if_pos hc2, hc2.1]
      have hi0 : interpP (PFloat.real 0) f (cumtrapz E f) = 0 := by
        show interp 0 f (cumtrapz E f) = 0
        rw [interp_le_head_eq 0 f (cumtrapz E f)
          (le_of_lt (allPos_headD_pos f hfp hfne)) h1 hclen, headD_cumtrapz]
      rw [hi0, sub_zero, ← hcl]
      exact interpP_le_last fmax1 f (cumtrapz E f) hf hcs hclen h1
    · rw [m0k, if_neg hc1, m0k, if_neg hc2]
      have := interpP_mono fmax1 fmax2 f (cumtrapz E f) h12 hf hcs hclen h1
      linarith

theorem m0k_anti_fmin (f E : List ℝ) (fmin1 fmin2 fmax : PFloat)
    (hf : sortedLt f) (hfp : allPos f) (hfne : f ≠ [])
    (hE : nonnegL E) (hlen : E.length = f.length)
    (h12 : pfLe fmin1 fmin2) :
    m0k f E fmin2 fmax ≤ m0k f E fmin1 fmax := by
  obtain ⟨hcs, hclen, hcl⟩ := cum_facts f E hf hE hlen hfne
  have h1 : 1 ≤ f.length := List.length_pos.mpr hfne
  have hhead : (cumtrapz E f).headD 0 = 0 := headD_cumtrapz E f
  by_cases hc1 : fmin1 = PFloat.real 0 ∧ fmax = PFloat.inf
  · by_cases heq : fmin2 = PFloat.real 0
    · rw [m0k, if_pos ⟨heq, hc1.2⟩, m0k, if_pos hc1]
    · rw [m0k, if_neg (fun h => heq h.1), m0k, if_pos hc1, hc1.2]
      have hge : 0 ≤ interpP fmin2 f (cumtrapz E f) := by
        have := interpP_ge_head fmin2 f (cumtrapz E f) hf hcs hclen h1
        rwa [hhead] at this
      show lastD (cumtrapz E f) - _ ≤ _
      rw [← hcl] at *
      linarith
  · by_cases hc2 : fmin2 = PFloat.real 0 ∧ fmax = PFloat.inf
    · rw [m0k, if_pos hc2, m0k, if_neg hc1, hc2.2]
      cases fmin1 with
      | inf => rw [hc2.1] at h12; exact False.elim h12
      | real a =>
          have ha : a ≤ 0 := by rw [hc2.1] at h12; exact h12
          have hane : a ≠ 0 := fun h => hc1 ⟨by rw [h], hc2.2⟩
          have ha' : a < 0 := lt_of_le_of_ne ha hane
          have hia : interpP (PFloat.real a) f (cumtrapz E f) = 0 := by
            show interp a f (cumtrapz E f) = 0
            rw [interp_le_head_eq a f (cumtrapz E f)
              (le_of_lt (lt_trans ha' (allPos_headD_pos f hfp hfne))) h1 hclen,
              headD_cumtrapz]
          show _ ≤ lastD (cumtrapz E f) - _
          rw [hia, sub_zero, hcl]
    · rw [m0k, if_neg hc2, m0k, if_neg hc1]
      have := interpP_mono fmin1 fmin2 f (cumtrapz E f) h12 hf hcs hclen h1
      linarith

theorem m0k_clamp_fmax (f E : List ℝ) (a : ℝ) (fmax : PFloat)
    (hf : sortedLt f) (hfp : allPos f) (hfne : f ≠ [])
    (hE : nonnegL E) (hlen : E.length = f.length)
    (ha : 0 < a) (hge : pfLe (PFloat.real (lastD f)) fmax) :
    m0k f E (PFloat.real a) fmax = m0k f E (PFloat.real a) (PFloat.real (lastD f)) := by
  obtain ⟨hcs, hclen, hcl⟩ := cum_facts f E hf hE hlen hfne
  have h1 : 1 ≤ f.length := List.length_pos.mpr hfne
  have hcond : ¬ (PFloat.real a = PFloat.real 0 ∧ fmax = PFloat.inf) := by
    intro h
    exact absurd (PFloat.real.injEq a 0 ▸ h.1) (by simpa using ne_of_gt ha)
  have hcond2 : ¬ (PFloat.real a = PFloat.real 0 ∧
      PFloat.real (lastD f) = PFloat.inf) := by
    intro h
    cases h.2
  rw [m0k, if_neg hcond, m0k, if_neg hcond2]
  congr 1
  have hrhs : interpP (PFloat.real (lastD f)) f (cumtrapz E f) =
      lastD (cumtrapz E f) := by
    show interp (lastD f) f (cumtrapz E f) = _
    exact interp_ge_last_eq (lastD f) f (cumtrapz E f) le_rfl hf h1 hclen
  cases fmax with
  | inf => rw [hrhs]; rfl
  | real b =>
      have hb : lastD f ≤ b := hge
      rw [hrhs]
      exact interp_ge_last_eq b f (cumtrapz E f) hb hf h1 hclen

theorem m0k_clamp_fmin (f E : List ℝ) (a : ℝ) (fmax : PFloat)
    (hf : sortedLt f) (hfp : allPos f) (hfne : f ≠ [])
    (hE : nonnegL E) (hlen : E.length = f.length)
    (ha : 0 < a) (hle : a ≤ f.headD 0) :
    m0k f E (PFloat.real a) fmax = m0k f E (PFloat.real (f.headD 0)) fmax := by
  obtain ⟨hcs, hclen, hcl⟩ := cum_facts f E hf hE hlen hfne
  have h1 : 1 ≤ f.length := List.length_pos.mpr hfne
  have hhpos : 0 < f.headD 0 := allPos_headD_pos f hfp hfne
  have hcond : ¬ (PFloat.real a = PFloat.real 0 ∧ fmax = PFloat.inf) := by
    intro h
    exact absurd (PFloat.real.injEq a 0 ▸ h.1) (by simpa using ne_of_gt ha)
  have hcond2 : ¬ (PFloat.real (f.headD 0) = PFloat.real 0 ∧ fmax = PFloat.inf) := by
    intro h
    exact absurd (PFloat.real.injEq _ 0 ▸ h.1) (by simpa using ne_of_gt hhpos)
  rw [m0k, if_neg hcond, m0k, if_neg hcond2]
  congr 1
  have e1 : interpP (PFloat.real a) f (cumtrapz E f) = 0 := by
    show interp a f (cumtrapz E f) = 0
    rw [interp_le_head_eq a f (cumtrapz E f) hle h1 hclen, headD_cumtrapz]
  have e2 : interpP (PFloat.real (f.headD 0)) f (cumtrapz E f) = 0 := by
    show interp (f.headD 0) f (cumtrapz E f) = 0
    rw [interp_le_head_eq (f.headD 0) f (cumtrapz E f) le_rfl h1 hclen,
      headD_cumtrapz]
  rw [e1, e2]

/-! ### Discrete Cauchy-Schwarz for the trapezoidal moments -/

theorem cs_add (A B a b C c : ℝ) (hA : 0 ≤ A) (hB : 0 ≤ B) (ha : 0 ≤ a)
    (hb : 0 ≤ b) (h1 : C ^ 2 ≤ A * B) (h2 : c ^ 2 ≤ a * b) :
    (C + c) ^ 2 ≤ (A + a) * (B + b) := by
  have hp : C ^ 2 * c ^ 2 ≤ (A * B) * (a * b) :=
    mul_le_mul h1 h2 (sq_nonneg c) (mul_nonneg hA hB)
  by_cases hcc : C * c ≤ 0
  · nlinarith [mul_nonneg hA hb, mul_nonneg ha hB]
  · push_neg at hcc
    have h4 : (2 * (C * c)) ^ 2 ≤ (A * b + a * B) ^ 2 := by
      nlinarith [sq_nonneg (A * b - a * B)]
    have h5 : 0 ≤ A * b + a * B :=
      add_nonneg (mul_nonneg hA hb) (mul_nonneg ha hB)
    have h7 : 0 ≤ 2 * (C * c) := by linarith
    have h6 : 2 * (C * c) ≤ A * b + a * B := by
      calc 2 * (C * c) = Real.sqrt ((2 * (C * c)) ^ 2) := (Real.sqrt_sq h7).symm
        _ ≤ Real.sqrt ((A * b + a * B) ^ 2) := Real.sqrt_le_sqrt h4
        _ = A * b + a * B := Real.sqrt_sq h5
    nlinarith

theorem trapz_moments_nonneg : ∀ E x : List ℝ, sortedLe x → nonnegL x →
    nonnegL E →
    0 ≤ trapz E x ∧ 0 ≤ trapz (List.zipWith (fun e v => e * v) E x) x ∧
      0 ≤ trapz (List.zipWith (fun e v => e * v ^ 2) E x) x
  | e0 :: e1 :: es, x0 :: x1 :: xs, hx, hxp, hE => by
      obtain ⟨i0, i1, i2⟩ :=
        trapz_moments_nonneg (e1 :: es) (x1 :: xs) hx.2 hxp.2 hE.2
      have hx01 : x0 ≤ x1 := hx.1
      have hx0 : (0:ℝ) ≤ x0 := hxp.1
      have hx1 : (0:ℝ) ≤ x1 := hxp.2.1
      have he0 : (0:ℝ) ≤ e0 := hE.1
      have he1 : (0:ℝ) ≤ e1 := hE.2.1
      simp only [List.zipWith_cons_cons, trapz] at i0 i1 i2 ⊢
      refine ⟨by nlinarith, ?_, ?_⟩
      · have hseg : 0 ≤ (x1 - x0) * (e0 * x0 + e1 * x1) / 2 := by
          have := mul_nonneg he0 hx0
          have := mul_nonneg he1 hx1
          nlinarith
        linarith
      · have hseg : 0 ≤ (x1 - x0) * (e0 * x0 ^ 2 + e1 * x1 ^ 2) / 2 := by
          have := mul_nonneg he0 (sq_nonneg x0)
          have := mul_nonneg he1 (sq_nonneg x1)
          nlinarith
        linarith
  | [], x, _, _, _ => ⟨le_rfl, le_rfl, le_rfl⟩
  | [e0], x, _, _, _ => by cases x <;> exact ⟨le_rfl, le_rfl, le_rfl⟩
  | e0 :: e1 :: es, [], _, _, _ => ⟨le_rfl, le_rfl, le_rfl⟩
  | e0 :: e1 :: es, [x0], _, _, _ => ⟨le_rfl, le_rfl, le_rfl⟩

theorem trapz_moments_cs : ∀ E x : List ℝ, sortedLe x → nonnegL x → nonnegL E →
    trapz (List.zipWith (fun e v => e * v) E x) x ^ 2 ≤
      trapz E x * trapz (List.zipWith (fun e v => e * v ^ 2) E x) x
  | e0 :: e1 :: es, x0 :: x1 :: xs, hx, hxp, hE => by
      have IH := trapz_moments_cs (e1 :: es) (x1 :: xs) hx.2 hxp.2 hE.2
      obtain ⟨i0, _, i2⟩ :=
        trapz_moments_nonneg (e1 :: es) (x1 :: xs) hx.2 hxp.2 hE.2
      have hΔ : (0:ℝ) ≤ x1 - x0 := by linarith [hx.1]
      have he0 : (0:ℝ) ≤ e0 := hE.1
      have he1 : (0:ℝ) ≤ e1 := hE.2.1
      have hA0 : 0 ≤ (x1 - x0) * (e0 + e1) / 2 := by nlinarith
      have hB0 : 0 ≤ (x1 - x0) * (e0 * x0 ^ 2 + e1 * x1 ^ 2) / 2 := by
        have := mul_nonneg he0 (sq_nonneg x0)
        have := mul_nonneg he1 (sq_nonneg x1)
        nlinarith
      have hseg : ((x1 - x0) * (e0 * x0 + e1 * x1) / 2) ^ 2 ≤
          ((x1 - x0) * (e0 + e1) / 2) *
            ((x1 - x0) * (e0 * x0 ^ 2 + e1 * x1 ^ 2) / 2) := by
        have key : (e0 * x0 + e1 * x1) ^ 2 ≤
            (e0 + e1) * (e0 * x0 ^ 2 + e1 * x1 ^ 2) := by
          nlinarith [mul_nonneg he0 he1, sq_nonneg (x0 - x1)]
        nlinarith [sq_nonneg (x1 - x0), mul_le_mul_of_nonneg_left key
          (mul_nonneg hΔ hΔ)]
      simp only [List.zipWith_cons_cons, trapz] at IH i0 i2 ⊢
      exact cs_add _ _ _ _ _ _ hA0 hB0 i0 i2 hseg IH
  | [], x, _, _, _ => by
      show (0:ℝ) ^ 2 ≤ 0 * 0
      norm_num
  | [e0], x, _, _, _ => by
      cases x <;> · show (0:ℝ) ^ 2 ≤ 0 * 0
                    norm_num
  | e0 :: e1 :: es, [], _, _, _ => by
      show (0:ℝ) ^ 2 ≤ 0 * 0
      norm_num
  | e0 :: e1 :: es, [x0], _, _, _ => by
      show (0:ℝ) ^ 2 ≤ 0 * 0
      norm_num

theorem trapz_moments_pos : ∀ E x : List ℝ, sortedLt x → allPos x →
    nonnegL E → existsPosL E → E.length = x.length → 2 ≤ E.length →
    0 < trapz E x ∧ 0 < trapz (List.zipWith (fun e v => e * v) E x) x ∧
      0 < trapz (List.zipWith (fun e v => e * v ^ 2) E x) x
  | e0 :: e1 :: es, x0 :: x1 :: xs, hx, hxp, hE, hex, hlen, _ => by
      have hΔ : (0:ℝ) < x1 - x0 := by linarith [hx.1]
      have hx0 : (0:ℝ) < x0 := hxp.1
      have hx1 : (0:ℝ) < x1 := hxp.2.1
      have he0 : (0:ℝ) ≤ e0 := hE.1
      have he1 : (0:ℝ) ≤ e1 := hE.2.1
      cases es with
      | nil =>
          cases xs with
          | cons x2 xs2 => simp at hlen
          | nil =>
              have hor : 0 < e0 ∨ 0 < e1 := by
                rcases hex with h | h | h
                · exact Or.inl h
                · exact Or.inr h
                · exact h.elim
              simp only [List.zipWith_cons_cons, List.zipWith_nil_left, trapz]
              rcases hor with h | h
              · refine ⟨by nlinarith, ?_, ?_⟩
                · have h1 : 0 < e0 * x0 := mul_pos h hx0
                  have h2 : 0 ≤ e1 * x1 := mul_nonneg he1 (le_of_lt hx1)
                  nlinarith
                · have h1 : 0 < e0 * x0 ^ 2 := mul_pos h (by positivity)
                  have h2 : 0 ≤ e1 * x1 ^ 2 := mul_nonneg he1 (sq_nonneg x1)
                  nlinarith
              · refine ⟨by nlinarith, ?_, ?_⟩
                · have h1 : 0 ≤ e0 * x0 := mul_nonneg he0 (le_of_lt hx0)
                  have h2 : 0 < e1 * x1 := mul_pos h hx1
                  nlinarith
                · have h1 : 0 ≤ e0 * x0 ^ 2 := mul_nonneg he0 (sq_nonneg x0)
                  have h2 : 0 < e1 * x1 ^ 2 := mul_pos h (by positivity)
                  nlinarith
      | cons e2 es2 =>
          cases xs with
          | nil => simp at hlen
          | cons x2 xs2 =>
              obtain ⟨i0, i1, i2⟩ := trapz_moments_nonneg (e1 :: e2 :: es2)
                (x1 :: x2 :: xs2) (sortedLt_sortedLe _ hx.2)
                (allPos_nonnegL _ hxp.2) hE.2
              rcases hex with h | htail
              · simp only [List.zipWith_cons_cons, trapz] at i0 i1 i2 ⊢
                refine ⟨by nlinarith, ?_, ?_⟩
                · have h1 : 0 < e0 * x0 := mul_pos h hx0
                  have h2 : 0 ≤ e1 * x1 := mul_nonneg he1 (le_of_lt hx1)
                  nlinarith
                · have h1 : 0 < e0 * x0 ^ 2 := mul_pos h (by positivity)
                  have h2 : 0 ≤ e1 * x1 ^ 2 := mul_nonneg he1 (sq_nonneg x1)
                  nlinarith
              · obtain ⟨p0, p1, p2⟩ := trapz_moments_pos (e1 :: e2 :: es2)
                  (x1 :: x2 :: xs2) hx.2 hxp.2 hE.2 htail (by simpa using hlen)
                  (by simp)
                simp only [List.zipWith_cons_cons, trapz] at p0 p1 p2 ⊢
                refine ⟨by nlinarith, ?_, ?_⟩
                · have h2 : 0 ≤ e1 * x1 := mul_nonneg he1 (le_of_lt hx1)
                  have h1 : 0 ≤ e0 * x0 := mul_nonneg he0 (le_of_lt hx0)
                  nlinarith
                · have h1 : 0 ≤ e0 * x0 ^ 2 := mul_nonneg he0 (sq_nonneg x0)
                  have h2 : 0 ≤ e1 * x1 ^ 2 := mul_nonneg he1 (sq_nonneg x1)
                  nlinarith
  | [], x, _, _, _, _, _, h2 => by simp at h2
  | [e0], x, _, _, _, _, _, h2 => by simp at h2
  | e0 :: e1 :: es, [], _, _, _, _, hlen, _ => by simp at hlen
  | e0 :: e1 :: es, [x0], _, _, _, _, hlen, _ => by simp at hlen

/-- Core of the spectral-moment ordering: for a nonnegative, not identically
zero energy row over a strictly increasing positive frequency axis, the cell
values of `Tm02` and `Tm01` satisfy `Tm02 ≤ Tm01`. -/
theorem Tm02k_le_Tm01k (f E : List ℝ) (hf : sortedLt f) (hfp : allPos f)
    (hE : nonnegL E) (hex : existsPosL E) (hlen : E.length = f.length)
    (h2 : 2 ≤ E.length) : Tm02k f E ≤ Tm01k f E := by
  obtain ⟨hm0, hm1, hm2⟩ := trapz_moments_pos E f hf hfp hE hex hlen h2
  have hcs := trapz_moments_cs E f (sortedLt_sortedLe f hf)
    (allPos_nonnegL f hfp) hE
  rw [Tm01k, Tm02k]
  have key : trapz E f / trapz (List.zipWith (fun e v => e * v ^ 2) E f) f ≤
      (trapz E f / trapz (List.zipWith (fun e v => e * v) E f) f) ^ 2 := by
    rw [div_pow, div_le_div_iff₀ hm2 (by positivity)]
    nlinarith [hcs, hm0.le]
  calc Real.sqrt (trapz E f / trapz (List.zipWith (fun e v => e * v ^ 2) E f) f)
      ≤ Real.sqrt ((trapz E f / trapz (List.zipWith (fun e v => e * v) E f) f) ^ 2) :=
        Real.sqrt_le_sqrt key
    _ = trapz E f / trapz (List.zipWith (fun e v => e * v) E f) f :=
        Real.sqrt_sq (by positivity)

/-! ### JONSWAP positivity and normalization -/

theorem jshape_pos (Hm0 Tp γ sa sb fi : ℝ) (hH : 0 < Hm0) (hT : 0 < Tp)
    (hγ : 0 < γ) (hf : 0 < fi) :
    0 < jshape Hm0 Tp γ JMethod.Yamaguchi sa sb fi := by
  rw [jshape, jalpha]
  have h1 : 0 < (0.06533 * γ ^ (0.8015 : ℝ) + 0.13467 : ℝ) := by
    have := Real.rpow_pos_of_pos hγ (0.8015 : ℝ)
    nlinarith
  have h2 : 0 < (1 / (0.06533 * γ ^ (0.8015 : ℝ) + 0.13467) / 16 : ℝ) := by
    positivity
  have h3 : (0:ℝ) < Tp ^ (-4 : ℤ) := zpow_pos hT _
  have h4 : (0:ℝ) < fi ^ (-5 : ℤ) := zpow_pos hf _
  have h5 : (0:ℝ) < Real.exp (-1.25 * (Tp * fi) ^ (-4 : ℤ)) := Real.exp_pos _
  have h6 : (0:ℝ) <
      γ ^ Real.exp (-0.5 * (Tp * fi - 1) ^ 2 / jsigma fi (1 / Tp) sa sb ^ 2) :=
    Real.rpow_pos_of_pos hγ _
  positivity

theorem trapz_jonswap_unnorm_pos (f : List ℝ) (Hm0 Tp g γ sa sb : ℝ)
    (hf : sortedLt f) (hfp : allPos f) (h2 : 2 ≤ f.length)
    (hH : 0 < Hm0) (hT : 0 < Tp) (hγ : 0 < γ) :
    0 < trapz (jonswap f Hm0 Tp g γ JMethod.Yamaguchi false sa sb) f := by
  have hmap : allPos (f.map (jshape Hm0 Tp γ JMethod.Yamaguchi sa sb)) :=
    allPos_map _ (fun a ha => jshape_pos Hm0 Tp γ sa sb a hH hT hγ ha) f hfp
  have hlen : (f.map (jshape Hm0 Tp γ JMethod.Yamaguchi sa sb)).length = f.length :=
    List.length_map _ _
  have := trapz_pos (f.map (jshape Hm0 Tp γ JMethod.Yamaguchi sa sb)) f hf hmap
    hlen (by omega)
  simpa [jonswap] using this

/-! ### The spreading kernel as the specification words it -/

theorem cdir_deg_eq_spec (dirs : List ℝ) (pdir ms : ℝ) :
    (cdirOf (dirs.map (fun d => d * (Real.pi / 180))) (pdir * (Real.pi / 180)) ms).map
        (fun c => c * (Real.pi / 180)) =
      dirs.map (spreadSpecWeight pdir ms) := by
  rw [cdirOf, List.map_map, List.map_map]
  apply List.map_congr_left
  intro d _
  have harg : d * (Real.pi / 180) - pdir * (Real.pi / 180) =
      (d - pdir) * (Real.pi / 180) := by ring
  simp only [Function.comp_apply, spreadSpecWeight, harg]
  exact mul_comm _ _

/-! ### Index plumbing for elementwise container results -/

theorem getD_map_lt {α β : Type} (g : α → β) (L : List α) (j : Nat)
    (dA : α) (dB : β) (hj : j < L.length) :
    (L.map g).getD j dB = g (L.getD j dA) := by
  rw [List.getD_eq_getElem?_getD, List.getElem?_map,
    List.getElem?_eq_getElem hj, List.getD_eq_getElem?_getD,
    List.getElem?_eq_getElem hj]
  rfl

theorem getD_mem {α : Type} (L : List α) (j : Nat) (d : α)
    (hj : j < L.length) : L.getD j d ∈ L := by
  rw [List.getD_eq_getElem?_getD, List.getElem?_eq_getElem hj]
  exact List.getElem_mem hj

theorem nonnegL_map_abs {α : Type} (g : α → ℝ) : ∀ l : List α,
    nonnegL (l.map (fun v => |g v|))
  | [] => trivial
  | a :: l => ⟨abs_nonneg _, nonnegL_map_abs g l⟩

/-! ### C1: JONSWAP normalization round trip -/

/-- C1: for every strictly increasing positive frequency axis and every
positive Hm0 and Tp, the normalized jonswap output E satisfies
16 · trapz(E, f) = Hm0² exactly, and equivalently 4·sqrt(trapz(E, f)) = Hm0,
provided the unnormalized shape has a nonzero trapezoidal integral. -/
theorem c1_jonswap_normalization (f : List ℝ) (Hm0 Tp g γ sa sb : ℝ)
    (method : JMethod) (hf : sortedLt f) (hfp : allPos f)
    (hH : 0 < Hm0) (hT : 0 < Tp)
    (hnz : trapz (jonswap f Hm0 Tp g γ method false sa sb) f ≠ 0) :
    16 * trapz (jonswap f Hm0 Tp g γ method true sa sb) f = Hm0 ^ 2 ∧
      4 * Real.sqrt (trapz (jonswap f Hm0 Tp g γ method true sa sb) f) = Hm0 := by
  have hE : jonswap f Hm0 Tp g γ method false sa sb =
      f.map (jshape Hm0 Tp γ method sa sb) := by simp [jonswap]
  rw [hE] at hnz
  have hEn : trapz (jonswap f Hm0 Tp g γ method true sa sb) f =
      Hm0 ^ 2 / (16 * trapz (f.map (jshape Hm0 Tp γ method sa sb)) f) *
        trapz (f.map (jshape Hm0 Tp γ method sa sb)) f := by
    show trapz ((f.map (jshape Hm0 Tp γ method sa sb)).map
      (fun v => v * (Hm0 ^ 2 /
        (16 * trapz (f.map (jshape Hm0 Tp γ method sa sb)) f)))) f = _
    rw [trapz_map_mul]
  have hval : trapz (jonswap f Hm0 Tp g γ method true sa sb) f = Hm0 ^ 2 / 16 := by
    rw [hEn]
    field_simp
    ring
  constructor
  · rw [hval]; field_simp
  · rw [hval, show Hm0 ^ 2 / 16 = (Hm0 / 4) ^ 2 by ring,
      Real.sqrt_sq (by positivity)]
    ring

/-- Witness for C1 at f = [1, 2], Hm0 = 1, Tp = 1, Yamaguchi method and the
default gamma and shape parameters. -/
theorem c1_witness :
    16 * trapz (jonswap [1, 2] 1 1 9.81 3.3 JMethod.Yamaguchi true 0.07 0.09) [1, 2] =
        1 ^ 2 ∧
      4 * Real.sqrt
          (trapz (jonswap [1, 2] 1 1 9.81 3.3 JMethod.Yamaguchi true 0.07 0.09) [1, 2]) =
        1 := by
  have hs : sortedLt [(1:ℝ), 2] := by
    refine ⟨by norm_num, trivial⟩
  have hp : allPos [(1:ℝ), 2] := ⟨by norm_num, by norm_num, trivial⟩
  have hpos := trapz_jonswap_unnorm_pos [1, 2] 1 1 9.81 3.3 0.07 0.09 hs hp
    (by norm_num) one_pos one_pos (by norm_num)
  exact c1_jonswap_normalization [1, 2] 1 1 9.81 3.3 0.07 0.09 JMethod.Yamaguchi
    hs hp one_pos one_pos (ne_of_gt hpos)

/-! ### C3: the directional spreading weights -/

/-- C3: for a unit tag starting with "deg", directional_spreading returns
for each sample direction exactly the weight
(pi/180) · (A1 · max(cos(θ−θp)^ms, 1e-10) if cos(θ−θp) > 0 else 0), the
cosine evaluated after conversion to radians. -/
theorem c3_directional_spreading_deg (dirs : List ℝ) (pdir ms : ℝ)
    (units : String) (hu : units.take 3 = "deg") :
    directional_spreading dirs pdir ms units =
      Except.ok (dirs.map (spreadSpecWeight pdir ms)) := by
  rw [directional_spreading, if_pos hu, cdir_deg_eq_spec]

/-- Witness for C3 at dirs = [0, 90], pdir = 45, ms = 2, units "degrees_north"
(whose 3-character head is "deg"). -/
theorem c3_witness :
    directional_spreading [0, 90] 45 2 "degrees_north" =
      Except.ok ([0, 90].map (spreadSpecWeight 45 2)) :=
  c3_directional_spreading_deg [0, 90] 45 2 "degrees_north" (by decide)

/-! ### C4: construction-time shape validation -/

/-- C4: supplying an energy (or, for rank 1, direction or spreading) array
whose shape differs from the axes-implied shape makes construction fail
immediately with an error naming the expected and the actual shape; the
rank-2 constructor validates energy against (nt, nxy, nf, nd) likewise. -/
theorem c4_shape_validation :
    (∀ (f t x lon : List ℝ) (eu : Option String) (e : List (List (List ℝ)))
        (d s : Option (List (List (List ℝ)))),
        isShape3 e t.length (max x.length lon.length) f.length = false →
        mkSpec1 f t x lon eu (some e) d s =
          Except.error ("dimensions E " ++ shapeStr3 (shape3 e) ++
            " do not match t,x,f " ++
            shapeStr3 (t.length, max x.length lon.length, f.length))) ∧
    (∀ (f t x lon : List ℝ) (eu : Option String) (e d : List (List (List ℝ)))
        (s : Option (List (List (List ℝ)))),
        isShape3 e t.length (max x.length lon.length) f.length = true →
        isShape3 d t.length (max x.length lon.length) f.length = false →
        mkSpec1 f t x lon eu (some e) (some d) s =
          Except.error ("dimensions E " ++ shapeStr3 (shape3 d) ++
            " do not match t,x,f " ++
            shapeStr3 (t.length, max x.length lon.length, f.length))) ∧
    (∀ (f t x lon : List ℝ) (eu : Option String) (e d s : List (List (List ℝ))),
        isShape3 e t.length (max x.length lon.length) f.length = true →
        isShape3 d t.length (max x.length lon.length) f.length = true →
        isShape3 s t.length (max x.length lon.length) f.length = false →
        mkSpec1 f t x lon eu (some e) (some d) (some s) =
          Except.error ("dimensions E " ++ shapeStr3 (shape3 s) ++
            " do not match t,x,f " ++
            shapeStr3 (t.length, max x.length lon.length, f.length))) ∧
    (∀ (f direction t x lon : List ℝ) (eu : Option String)
        (e : List (List (List (List ℝ)))),
        isShape4 e t.length (max x.length lon.length) f.length direction.length
            = false →
        mkSpec2 f direction t x lon eu (some e) =
          Except.error ("dimensions E " ++ shapeStr4 (shape4 e) ++
            " do not match t,x,f,direction " ++
            shapeStr4 (t.length, max x.length lon.length, f.length,
              direction.length))) := by
  refine ⟨?_, ?_, ?_, ?_⟩
  · intro f t x lon eu e d s h
    simp [mkSpec1, h]
  · intro f t x lon eu e d s hE hd
    simp [mkSpec1, hE, hd]
  · intro f t x lon eu e d s hE hd hs
    simp [mkSpec1, hE, hd, hs]
  · intro f direction t x lon eu e h
    simp [mkSpec2, h]

/-- Witness for C4: a (2, 3, 4) energy cube supplied to a rank-1 container
whose axes imply (1, 1, 4) is rejected with the shape-mismatch message. -/
theorem c4_witness :
    mkSpec1 [1, 2, 3, 4] [0] [0] [0] Option.none (some (cube3 2 3 4 0))
        Option.none Option.none =
      Except.error ("dimensions E " ++ shapeStr3 (shape3 (cube3 2 3 4 0)) ++
        " do not match t,x,f " ++ shapeStr3 (1, 1, 4)) :=
  c4_shape_validation.1 [1, 2, 3, 4] [0] [0] [0] Option.none (cube3 2 3 4 0)
    Option.none Option.none (by decide)

/-! ### C9: the units tags carried by the containers (corrected) -/

/-- C9 counterexample: a Spec1 constructed with all-default arguments carries
energy_units "m2/Hz/deg", not "m2/Hz" as claimed. -/
theorem c9_counterexample :
    (mkSpec1 [0] [0] [0] [0] Option.none Option.none Option.none
        Option.none).map Spec1.energy_units = Except.ok "m2/Hz/deg" ∧
      ("m2/Hz/deg" : String) ≠ "m2/Hz" := by
  constructor
  · rfl
  · decide

/-- C9 amended: every successfully constructed container (rank 1 or rank 2)
starts with energy_units "m2/Hz/deg"; a Spec1 only carries "m2/Hz" after
from_jonswap (which sets it), a Spec2.from_jonswap re-sets "m2/Hz/deg", and a
default-constructed Spec1 therefore does hit the unknown-units branch of its
reductions (shown for Tm01). -/
theorem c9_units_tags :
    (∀ (f t x lon : List ℝ) (e d s : Option (List (List (List ℝ))))
        (S : Spec1),
        mkSpec1 f t x lon Option.none e d s = Except.ok S →
        S.energy_units = "m2/Hz/deg") ∧
    (∀ (S : Spec1) (Hm0 Tp pdir ms g γ : ℝ) (method : JMethod)
        (normalize : Bool) (sa sb : ℝ),
        (S.from_jonswap Hm0 Tp pdir ms g γ method normalize sa sb).energy_units
          = "m2/Hz") ∧
    (∀ (f direction t x lon : List ℝ) (e : Option (List (List (List (List ℝ)))))
        (S : Spec2),
        mkSpec2 f direction t x lon Option.none e = Except.ok S →
        S.energy_units = "m2/Hz/deg") ∧
    (∀ (S : Spec2) (Hm0 Tp pdir ms g γ : ℝ) (method : JMethod)
        (normalize : Bool) (sa sb : ℝ),
        (S.from_jonswap Hm0 Tp pdir ms g γ method normalize sa sb).energy_units
          = "m2/Hz/deg") ∧
    (∀ S : Spec1, S.energy_units = "m2/Hz/deg" →
        S.Tm01 = (["unknown units " ++ S.energy_units], Except.ok PyVal.pynone)) := by
  refine ⟨?_, ?_, ?_, ?_, ?_⟩
  · intro f t x lon e d s S h
    rw [mkSpec1] at h
    dsimp only at h
    split at h
    · split at h
      · split at h
        · cases h
          rfl
        · cases h
      · cases h
    · cases h
  · intro S Hm0 Tp pdir ms g γ method normalize sa sb
    rfl
  · intro f direction t x lon e S h
    rw [mkSpec2] at h
    split at h
    · cases h
      rfl
    · cases h
  · intro S Hm0 Tp pdir ms g γ method normalize sa sb
    rfl
  · intro S h
    rw [Spec1.Tm01, if_neg]
    rw [h]
    decide

/-! ### C2: behavior of the reductions on a units mismatch (corrected) -/

/-- A rank-1 container carrying an unrecognized units tag. -/
def badUnitsSpec1 : Spec1 :=
  { f := [1], t := [0], x := [0], y := [0], lon := [0], lat := [0],
    source := "", energy_units := "bogus", direction_units := "degrees_north",
    spreading_units := "degr", energy := cube3 1 1 1 0,
    direction := cube3 1 1 1 0, spreading := cube3 1 1 1 0 }

/-- A rank-2 container carrying an unrecognized units tag. -/
def badUnitsSpec2 : Spec2 :=
  { f := [1], direction := [0], t := [0], x := [0], y := [0], lon := [0],
    lat := [0], source := "", energy_units := "bogus",
    direction_units := "degrees_north", energy := cube4 1 1 1 1 0 }

/-- C2 counterexample: on a units mismatch, Hm0 does not return a null
sentinel non-fatally - the unknown-units branch feeds the None sentinel into
`4*np.sqrt(...)`, which raises a TypeError. -/
theorem c2_counterexample :
    (badUnitsSpec1.Hm0 (PFloat.real 0) PFloat.inf).2 =
      Except.error "TypeError: ufunc sqrt does not support NoneType" := by
  rw [Spec1.Hm0, if_neg]
  decide

/-- C2 amended: on a units mismatch, Tm01, Tm02, Tp (and pdir on rank 2)
print a diagnostic and return the None sentinel non-fatally, but Hm0 (both
ranks) prints the diagnostic and then raises a TypeError from
`4*np.sqrt(None)` instead of returning a sentinel. -/
theorem c2_unknown_units_behavior :
    (∀ (S : Spec1) (fmin fmax : PFloat), S.energy_units ≠ "m2/Hz" →
        S.Hm0 fmin fmax = (["unknown units " ++ S.energy_units],
          Except.error "TypeError: ufunc sqrt does not support NoneType")) ∧
    (∀ S : Spec1, S.energy_units.take 9 ≠ "m2/Hz" →
        S.Tm01 = (["unknown units " ++ S.energy_units], Except.ok PyVal.pynone)) ∧
    (∀ S : Spec1, S.energy_units.take 9 ≠ "m2/Hz" →
        S.Tm02 = (["unknown units " ++ S.energy_units], Except.ok PyVal.pynone)) ∧
    (∀ S : Spec1, S.energy_units.take 9 ≠ "m2/Hz" →
        S.Tp = (["unknown units " ++ S.energy_units], Except.ok PyVal.pynone)) ∧
    (∀ (S : Spec2) (fmin fmax : PFloat), S.energy_units.take 9 ≠ "m2/Hz/deg" →
        S.Hm0 fmin fmax = (["unknown units " ++ S.energy_units],
          Except.error "TypeError: ufunc sqrt does not support NoneType")) ∧
    (∀ S : Spec2, S.energy_units.take 9 ≠ "m2/Hz/deg" →
        S.Tm01 = (["unknown units " ++ S.energy_units], Except.ok PyVal.pynone)) ∧
    (∀ S : Spec2, S.energy_units.take 9 ≠ "m2/Hz/deg" →
        S.Tm02 = (["unknown units " ++ S.energy_units], Except.ok PyVal.pynone)) ∧
    (∀ S : Spec2, S.energy_units.take 9 ≠ "m2/Hz/deg" →
        S.Tp = (["unknown units " ++ S.energy_units], Except.ok PyVal.pynone)) ∧
    (∀ S : Spec2, S.energy_units.take 9 ≠ "m2/Hz/deg" →
        S.pdir = (["unknown units " ++ S.energy_units], Except.ok PyVal.pynone)) := by
  refine ⟨?_, ?_, ?_, ?_, ?_, ?_, ?_, ?_, ?_⟩
  · intro S fmin fmax h; rw [Spec1.Hm0, if_neg h]
  · intro S h; rw [Spec1.Tm01, if_neg h]
  · intro S h; rw [Spec1.Tm02, if_neg h]
  · intro S h; rw [Spec1.Tp, if_neg h]
  · intro S fmin fmax h; rw [Spec2.Hm0, if_neg h]
  · intro S h; rw [Spec2.Tm01, if_neg h]
  · intro S h; rw [Spec2.Tm02, if_neg h]
  · intro S h; rw [Spec2.Tp, if_neg h]
  · intro S h; rw [Spec2.pdir, if_neg h]

/-- Witness for C2 (amended) at the concrete bad-units containers. -/
theorem c2_witness :
    badUnitsSpec1.Hm0 (PFloat.real 0) PFloat.inf =
        (["unknown units " ++ badUnitsSpec1.energy_units],
          Except.error "TypeError: ufunc sqrt does not support NoneType") ∧
      badUnitsSpec1.Tm01 =
        (["unknown units " ++ badUnitsSpec1.energy_units], Except.ok PyVal.pynone) ∧
      badUnitsSpec1.Tm02 =
        (["unknown units " ++ badUnitsSpec1.energy_units], Except.ok PyVal.pynone) ∧
      badUnitsSpec1.Tp =
        (["unknown units " ++ badUnitsSpec1.energy_units], Except.ok PyVal.pynone) ∧
      badUnitsSpec2.Hm0 (PFloat.real 0) PFloat.inf =
        (["unknown units " ++ badUnitsSpec2.energy_units],
          Except.error "TypeError: ufunc sqrt does not support NoneType") ∧
      badUnitsSpec2.Tm01 =
        (["unknown units " ++ badUnitsSpec2.energy_units], Except.ok PyVal.pynone) ∧
      badUnitsSpec2.Tm02 =
        (["unknown units " ++ badUnitsSpec2.energy_units], Except.ok PyVal.pynone) ∧
      badUnitsSpec2.Tp =
        (["unknown units " ++ badUnitsSpec2.energy_units], Except.ok PyVal.pynone) ∧
      badUnitsSpec2.pdir =
        (["unknown units " ++ badUnitsSpec2.energy_units], Except.ok PyVal.pynone) :=
  ⟨c2_unknown_units_behavior.1 badUnitsSpec1 (PFloat.real 0) PFloat.inf (by decide),
   c2_unknown_units_behavior.2.1 badUnitsSpec1 (by decide),
   c2_unknown_units_behavior.2.2.1 badUnitsSpec1 (by decide),
   c2_unknown_units_behavior.2.2.2.1 badUnitsSpec1 (by decide),
   c2_unknown_units_behavior.2.2.2.2.1 badUnitsSpec2 (PFloat.real 0) PFloat.inf
     (by decide),
   c2_unknown_units_behavior.2.2.2.2.2.1 badUnitsSpec2 (by decide),
   c2_unknown_units_behavior.2.2.2.2.2.2.1 badUnitsSpec2 (by decide),
   c2_unknown_units_behavior.2.2.2.2.2.2.2.1 badUnitsSpec2 (by decide),
   c2_unknown_units_behavior.2.2.2.2.2.2.2.2 badUnitsSpec2 (by decide)⟩

/-! ### C5: invariance under reversal of the direction axis -/

theorem spec1_reverseDirection (S : Spec2)
    (hlen : ∀ a ∈ S.energy, ∀ b ∈ a, ∀ Ed ∈ b, Ed.length = S.direction.length) :
    (S.reverseDirection).spec1 = S.spec1 := by
  rw [Spec2.spec1, Spec2.spec1, Spec2.reverseDirection]
  simp only [List.map_map]
  apply List.map_congr_left
  intro a ha
  simp only [Function.comp_apply, List.map_map]
  apply List.map_congr_left
  intro b hb
  simp only [Function.comp_apply, List.map_map]
  apply List.map_congr_left
  intro Ed hEd
  simp only [Function.comp_apply]
  rw [trapz_reverse Ed S.direction (hlen a ha b hb Ed hEd)]
  exact abs_neg _

/-- C5: for a rank-2 container with matching units tag and nonnegative
energy, reversing the direction axis (and the energy array along it) leaves
Hm0 (over any frequency range), Tm01 and Tm02 unchanged: the absolute value
taken at the direction-integration step absorbs the sign flip. -/
theorem c5_reverse_direction_invariance (S : Spec2)
    (hu : S.energy_units.take 9 = "m2/Hz/deg")
    (hnn : ∀ a ∈ S.energy, ∀ b ∈ a, ∀ Ed ∈ b, nonnegL Ed)
    (hlen : ∀ a ∈ S.energy, ∀ b ∈ a, ∀ Ed ∈ b, Ed.length = S.direction.length) :
    (∀ fmin fmax, (S.reverseDirection).Hm0 fmin fmax = S.Hm0 fmin fmax) ∧
      (S.reverseDirection).Tm01 = S.Tm01 ∧
      (S.reverseDirection).Tm02 = S.Tm02 := by
  have hs := spec1_reverseDirection S hlen
  have hu' : (S.reverseDirection).energy_units = S.energy_units := rfl
  have hf' : (S.reverseDirection).f = S.f := rfl
  refine ⟨fun fmin fmax => ?_, ?_, ?_⟩
  · rw [Spec2.Hm0, Spec2.Hm0, hu', hf', hs]
  · rw [Spec2.Tm01, Spec2.Tm01, hu', hf', hs]
  · rw [Spec2.Tm02, Spec2.Tm02, hu', hf', hs]

/-- A small concrete rank-2 container for the C5 witness. -/
def c5Spec2 : Spec2 :=
  { f := [1, 2], direction := [0, 90], t := [0], x := [0], y := [0],
    lon := [0], lat := [0], source := "", energy_units := "m2/Hz/deg",
    direction_units := "degrees_north",
    energy := [[[[1, 2], [3, 4]]]] }

/-- Witness for C5 at the concrete container. -/
theorem c5_witness :
    (c5Spec2.reverseDirection).Hm0 (PFloat.real 0) PFloat.inf =
        c5Spec2.Hm0 (PFloat.real 0) PFloat.inf ∧
      (c5Spec2.reverseDirection).Tm01 = c5Spec2.Tm01 ∧
      (c5Spec2.reverseDirection).Tm02 = c5Spec2.Tm02 := by
  have h := c5_reverse_direction_invariance c5Spec2 (by decide)
    (by
      intro a ha b hb Ed hEd
      simp only [c5Spec2] at ha
      simp only [List.mem_singleton] at ha
      subst ha
      simp only [List.mem_singleton] at hb
      subst hb
      simp only [List.mem_cons, List.not_mem_nil, or_false] at hEd
      rcases hEd with h1 | h1 <;> subst h1 <;>
        exact ⟨by norm_num, by norm_num, trivial⟩)
    (by
      intro a ha b hb Ed hEd
      simp only [c5Spec2] at ha
      simp only [List.mem_singleton] at ha
      subst ha
      simp only [List.mem_singleton] at hb
      subst hb
      simp only [List.mem_cons, List.not_mem_nil, or_false] at hEd
      rcases hEd with h1 | h1 <;> subst h1 <;> rfl)
  exact ⟨h.1 (PFloat.real 0) PFloat.inf, h.2.1, h.2.2⟩

/-! ### C7: spectral-moment ordering Tm02 ≤ Tm01 -/

theorem resAt_ok_cube (msgs : List String) (g : List ℝ → ℝ)
    (E : List (List (List ℝ))) (i j : Nat) (hi : i < E.length)
    (hj : j < (E.getD i []).length) :
    resAt (msgs, Except.ok (PyVal.arr2 (E.map (fun row => row.map g)))) i j =
      g ((E.getD i []).getD j []) := by
  show ((E.map (fun row => row.map g)).getD i []).getD j 0 = _
  rw [getD_map_lt (fun row => row.map g) E i [] [] hi,
    getD_map_lt g (E.getD i []) j [] 0 hj]

/-- C7: for a rank-1 container with matching units tag, strictly increasing
positive frequency axis, and per-cell nonnegative, not identically zero
energy, every cell of Tm02 is at most the corresponding cell of Tm01
(sqrt(m0/m2) ≤ m0/m1 for the trapezoidal moments). -/
theorem c7_Tm02_le_Tm01 (S : Spec1)
    (hu : S.energy_units.take 9 = "m2/Hz")
    (hf : sortedLt S.f) (hfp : allPos S.f)
    (hcell : ∀ row ∈ S.energy, ∀ E ∈ row, nonnegL E ∧ existsPosL E ∧
      E.length = S.f.length ∧ 2 ≤ E.length) :
    ∀ it ix, it < S.energy.length → ix < (S.energy.getD it []).length →
      resAt S.Tm02 it ix ≤ resAt S.Tm01 it ix := by
  intro it ix hit hix
  rw [Spec1.Tm02, if_pos hu, Spec1.Tm01, if_pos hu]
  rw [resAt_ok_cube _ _ _ _ _ hit hix, resAt_ok_cube _ _ _ _ _ hit hix]
  have hrow : S.energy.getD it [] ∈ S.energy := getD_mem _ _ _ hit
  have hc : (S.energy.getD it []).getD ix [] ∈ S.energy.getD it [] :=
    getD_mem _ _ _ hix
  obtain ⟨h1, h2, h3, h4⟩ := hcell _ hrow _ hc
  exact Tm02k_le_Tm01k S.f _ hf hfp h1 h2 h3 h4

/-- A small concrete rank-1 container for the C7, C8, C10 witnesses. -/
def c7Spec1 : Spec1 :=
  { f := [1, 2], t := [0], x := [0], y := [0], lon := [0], lat := [0],
    source := "", energy_units := "m2/Hz", direction_units := "degrees_north",
    spreading_units := "degr", energy := [[[1, 1]]],
    direction := cube3 1 1 2 0, spreading := cube3 1 1 2 0 }

theorem c7Spec1_cells : ∀ row ∈ c7Spec1.energy, ∀ E ∈ row,
    nonnegL E ∧ existsPosL E ∧ E.length = c7Spec1.f.length ∧ 2 ≤ E.length := by
  intro row hrow E hE
  simp only [c7Spec1, List.mem_cons, List.not_mem_nil, or_false] at hrow
  subst hrow
  simp only [List.mem_cons, List.not_mem_nil, or_false] at hE
  subst hE
  exact ⟨⟨by norm_num, by norm_num, trivial⟩, Or.inl (by norm_num), rfl,
    le_refl 2⟩

/-- Witness for C7 at the concrete container. -/
theorem c7_witness : resAt c7Spec1.Tm02 0 0 ≤ resAt c7Spec1.Tm01 0 0 :=
  c7_Tm02_le_Tm01 c7Spec1 (by decide)
    ⟨by norm_num, trivial⟩ ⟨by norm_num, by norm_num, trivial⟩
    c7Spec1_cells 0 0 (by norm_num [c7Spec1]) (by norm_num [c7Spec1])

/-! ### C8: monotonicity and the full-band identity of the Hm0 range query -/

theorem spec1_cell_props (S2 : Spec2)
    (hblen : ∀ a ∈ S2.energy, ∀ b ∈ a, b.length = S2.f.length)
    (it ix : Nat) (hit : it < S2.spec1.length)
    (hix : ix < (S2.spec1.getD it []).length) :
    nonnegL ((S2.spec1.getD it []).getD ix []) ∧
      ((S2.spec1.getD it []).getD ix []).length = S2.f.length := by
  have hrow : S2.spec1.getD it [] ∈ S2.spec1 := getD_mem _ _ _ hit
  have hc : (S2.spec1.getD it []).getD ix [] ∈ S2.spec1.getD it [] :=
    getD_mem _ _ _ hix
  obtain ⟨a, ha, hrow_eq⟩ := List.mem_map.mp hrow
  have hc2 : (S2.spec1.getD it []).getD ix [] ∈
      List.map (fun b => List.map (fun Ed => |trapz Ed S2.direction|) b) a := by
    rw [hrow_eq]; exact hc
  obtain ⟨b, hb, hc_eq⟩ := List.mem_map.mp hc2
  constructor
  · rw [← hc_eq]
    exact nonnegL_map_abs _ b
  · rw [← hc_eq, List.length_map]
    exact hblen a ha b hb

/-- C8: for a fixed container with matching units tag, nonnegative energy
and a strictly increasing positive frequency axis, every cell of the
frequency-range Hm0 is non-decreasing in fmax and non-increasing in fmin, and
the (0, np.inf) call computes exactly the full-band value 4·sqrt(trapz(E, f)),
which also equals the value the interpolated-cumulative-integral formula
yields at those bounds.  All three properties are proved for rank-1
containers and likewise for rank-2 containers after direction integration,
where cell nonnegativity is automatic from the absolute value. -/
theorem c8_Hm0_range_monotone (S : Spec1)
    (hu : S.energy_units = "m2/Hz")
    (hf : sortedLt S.f) (hfp : allPos S.f) (hfne : S.f ≠ [])
    (hcell : ∀ row ∈ S.energy, ∀ E ∈ row, nonnegL E ∧ E.length = S.f.length) :
    (∀ fmin fmax1 fmax2, pfLe fmax1 fmax2 →
      ∀ it ix, it < S.energy.length → ix < (S.energy.getD it []).length →
        resAt (S.Hm0 fmin fmax1) it ix ≤ resAt (S.Hm0 fmin fmax2) it ix) ∧
    (∀ fmin1 fmin2 fmax, pfLe fmin1 fmin2 →
      ∀ it ix, it < S.energy.length → ix < (S.energy.getD it []).length →
        resAt (S.Hm0 fmin2 fmax) it ix ≤ resAt (S.Hm0 fmin1 fmax) it ix) ∧
    (∀ it ix, it < S.energy.length → ix < (S.energy.getD it []).length →
      resAt (S.Hm0 (PFloat.real 0) PFloat.inf) it ix =
          4 * Real.sqrt (trapz ((S.energy.getD it []).getD ix []) S.f) ∧
        resAt (S.Hm0 (PFloat.real 0) PFloat.inf) it ix =
          4 * Real.sqrt (interpP PFloat.inf S.f
              (cumtrapz ((S.energy.getD it []).getD ix []) S.f) -
            interpP (PFloat.real 0) S.f
              (cumtrapz ((S.energy.getD it []).getD ix []) S.f))) ∧
    (∀ S2 : Spec2, S2.energy_units.take 9 = "m2/Hz/deg" →
      sortedLt S2.f → allPos S2.f → S2.f ≠ [] →
      (∀ a ∈ S2.energy, ∀ b ∈ a, b.length = S2.f.length) →
      ∀ fmin fmax1 fmax2, pfLe fmax1 fmax2 →
      ∀ it ix, it < S2.spec1.length → ix < (S2.spec1.getD it []).length →
        resAt (S2.Hm0 fmin fmax1) it ix ≤ resAt (S2.Hm0 fmin fmax2) it ix) ∧
    (∀ S2 : Spec2, S2.energy_units.take 9 = "m2/Hz/deg" →
      sortedLt S2.f → allPos S2.f → S2.f ≠ [] →
      (∀ a ∈ S2.energy, ∀ b ∈ a, b.length = S2.f.length) →
      ∀ fmin1 fmin2 fmax, pfLe fmin1 fmin2 →
      ∀ it ix, it < S2.spec1.length → ix < (S2.spec1.getD it []).length →
        resAt (S2.Hm0 fmin2 fmax) it ix ≤ resAt (S2.Hm0 fmin1 fmax) it ix) ∧
    (∀ S2 : Spec2, S2.energy_units.take 9 = "m2/Hz/deg" →
      sortedLt S2.f → allPos S2.f → S2.f ≠ [] →
      (∀ a ∈ S2.energy, ∀ b ∈ a, b.length = S2.f.length) →
      ∀ it ix, it < S2.spec1.length → ix < (S2.spec1.getD it []).length →
        resAt (S2.Hm0 (PFloat.real 0) PFloat.inf) it ix =
            4 * Real.sqrt (trapz ((S2.spec1.getD it []).getD ix []) S2.f) ∧
          resAt (S2.Hm0 (PFloat.real 0) PFloat.inf) it ix =
            4 * Real.sqrt (interpP PFloat.inf S2.f
                (cumtrapz ((S2.spec1.getD it []).getD ix []) S2.f) -
              interpP (PFloat.real 0) S2.f
                (cumtrapz ((S2.spec1.getD it []).getD ix []) S2.f))) := by
  refine ⟨?_, ?_, ?_, ?_, ?_, ?_⟩
  · intro fmin fmax1 fmax2 h12 it ix hit hix
    rw [Spec1.Hm0, if_pos hu, Spec1.Hm0, if_pos hu,
      resAt_ok_cube _ _ _ _ _ hit hix, resAt_ok_cube _ _ _ _ _ hit hix]
    have hrow : S.energy.getD it [] ∈ S.energy := getD_mem _ _ _ hit
    have hc : (S.energy.getD it []).getD ix [] ∈ S.energy.getD it [] :=
      getD_mem _ _ _ hix
    obtain ⟨h1, h2⟩ := hcell _ hrow _ hc
    have := m0k_mono_fmax S.f _ fmin fmax1 fmax2 hf hfp hfne h1 h2 h12
    have hs := Real.sqrt_le_sqrt this
    linarith
  · intro fmin1 fmin2 fmax h12 it ix hit hix
    rw [Spec1.Hm0, if_pos hu, Spec1.Hm0, if_pos hu,
      resAt_ok_cube _ _ _ _ _ hit hix, resAt_ok_cube _ _ _ _ _ hit hix]
    have hrow : S.energy.getD it [] ∈ S.energy := getD_mem _ _ _ hit
    have hc : (S.energy.getD it []).getD ix [] ∈ S.energy.getD it [] :=
      getD_mem _ _ _ hix
    obtain ⟨h1, h2⟩ := hcell _ hrow _ hc
    have := m0k_anti_fmin S.f _ fmin1 fmin2 fmax hf hfp hfne h1 h2 h12
    have hs := Real.sqrt_le_sqrt this
    linarith
  · intro it ix hit hix
    rw [Spec1.Hm0, if_pos hu, resAt_ok_cube _ _ _ _ _ hit hix]
    have hrow : S.energy.getD it [] ∈ S.energy := getD_mem _ _ _ hit
    have hc : (S.energy.getD it []).getD ix [] ∈ S.energy.getD it [] :=
      getD_mem _ _ _ hix
    obtain ⟨h1, h2⟩ := hcell _ hrow _ hc
    refine ⟨by rw [m0k_full], ?_⟩
    rw [m0k_full, m0k_full_interp S.f _ hf hfp hfne h1 h2]
  · intro S2 hu2 hf2 hfp2 hfne2 hblen fmin fmax1 fmax2 h12 it ix hit hix
    rw [Spec2.Hm0, if_pos hu2, Spec2.Hm0, if_pos hu2,
      resAt_ok_cube _ _ _ _ _ hit hix, resAt_ok_cube _ _ _ _ _ hit hix]
    obtain ⟨h1, h2⟩ := spec1_cell_props S2 hblen it ix hit hix
    have := m0k_mono_fmax S2.f _ fmin fmax1 fmax2 hf2 hfp2 hfne2 h1 h2 h12
    have hs := Real.sqrt_le_sqrt this
    linarith
  · intro S2 hu2 hf2 hfp2 hfne2 hblen fmin1 fmin2 fmax h12 it ix hit hix
    rw [Spec2.Hm0, if_pos hu2, Spec2.Hm0, if_pos hu2,
      resAt_ok_cube _ _ _ _ _ hit hix, resAt_ok_cube _ _ _ _ _ hit hix]
    obtain ⟨h1, h2⟩ := spec1_cell_props S2 hblen it ix hit hix
    have := m0k_anti_fmin S2.f _ fmin1 fmin2 fmax hf2 hfp2 hfne2 h1 h2 h12
    have hs := Real.sqrt_le_sqrt this
    linarith
  · intro S2 hu2 hf2 hfp2 hfne2 hblen it ix hit hix
    rw [Spec2.Hm0, if_pos hu2, resAt_ok_cube _ _ _ _ _ hit hix]
    obtain ⟨h1, h2⟩ := spec1_cell_props S2 hblen it ix hit hix
    refine ⟨by rw [m0k_full], ?_⟩
    rw [m0k_full, m0k_full_interp S2.f _ hf2 hfp2 hfne2 h1 h2]

/-- Witness for C8 at concrete rank-1 and rank-2 containers: the range
(0, 1.5) against (0, np.inf), a lowered fmin on the rank-2 container, and
both full-band identities. -/
theorem c8_witness :
    resAt (c7Spec1.Hm0 (PFloat.real 0) (PFloat.real 1.5)) 0 0 ≤
        resAt (c7Spec1.Hm0 (PFloat.real 0) PFloat.inf) 0 0 ∧
      resAt (c7Spec1.Hm0 (PFloat.real 0) PFloat.inf) 0 0 =
        4 * Real.sqrt (trapz ((c7Spec1.energy.getD 0 []).getD 0 []) c7Spec1.f) ∧
      resAt (c5Spec2.Hm0 (PFloat.real 1) PFloat.inf) 0 0 ≤
        resAt (c5Spec2.Hm0 (PFloat.real 0) PFloat.inf) 0 0 ∧
      resAt (c5Spec2.Hm0 (PFloat.real 0) PFloat.inf) 0 0 =
        4 * Real.sqrt (trapz ((c5Spec2.spec1.getD 0 []).getD 0 []) c5Spec2.f) := by
  have h := c8_Hm0_range_monotone c7Spec1 (by decide)
    ⟨by norm_num, trivial⟩ ⟨by norm_num, by norm_num, trivial⟩ (by decide)
    (by
      intro row hrow E hE
      simp only [c7Spec1, List.mem_cons, List.not_mem_nil, or_false] at hrow
      subst hrow
      simp only [List.mem_cons, List.not_mem_nil, or_false] at hE
      subst hE
      exact ⟨⟨by norm_num, by norm_num, trivial⟩, rfl⟩)
  have hb : ∀ a ∈ c5Spec2.energy, ∀ b ∈ a, b.length = c5Spec2.f.length := by
    intro a ha b hbm
    simp only [c5Spec2, List.mem_cons, List.not_mem_nil, or_false] at ha
    subst ha
    simp only [List.mem_cons, List.not_mem_nil, or_false] at hbm
    subst hbm
    rfl
  refine ⟨h.1 (PFloat.real 0) (PFloat.real 1.5) PFloat.inf trivial 0 0
      (by norm_num [c7Spec1]) (by norm_num [c7Spec1]),
    (h.2.2.1 0 0 (by norm_num [c7Spec1]) (by norm_num [c7Spec1])).1,
    h.2.2.2.2.1 c5Spec2 (by decide) ⟨by norm_num, trivial⟩
      ⟨by norm_num, by norm_num, trivial⟩ (by decide) hb
      (PFloat.real 0) (PFloat.real 1) PFloat.inf (by norm_num [pfLe]) 0 0
      (by norm_num [Spec2.spec1, c5Spec2]) (by norm_num [Spec2.spec1, c5Spec2]),
    (h.2.2.2.2.2 c5Spec2 (by decide) ⟨by norm_num, trivial⟩
      ⟨by norm_num, by norm_num, trivial⟩ (by decide) hb 0 0
      (by norm_num [Spec2.spec1, c5Spec2])
      (by norm_num [Spec2.spec1, c5Spec2])).1⟩

/-! ### C10: out-of-band bounds clamp to the sampled band -/

/-- C10: for a rank-1 container with matching units tag, nonnegative energy
and a strictly increasing positive frequency axis, a range query whose upper
bound lies at or above the last frequency sample behaves exactly like
fmax = f[nf-1], and a positive lower bound at or below the first sample
behaves exactly like fmin = f[0]: the interpolated cumulative integral clamps
to its endpoint values, so out-of-band bounds add no energy and raise no
error. -/
theorem c10_Hm0_out_of_band_clamping (S : Spec1)
    (hu : S.energy_units = "m2/Hz")
    (hf : sortedLt S.f) (hfp : allPos S.f) (hfne : S.f ≠ [])
    (hcell : ∀ row ∈ S.energy, ∀ E ∈ row, nonnegL E ∧ E.length = S.f.length) :
    (∀ (a : ℝ) (fmax : PFloat), 0 < a → pfLe (PFloat.real (lastD S.f)) fmax →
      ∀ it ix, it < S.energy.length → ix < (S.energy.getD it []).length →
        resAt (S.Hm0 (PFloat.real a) fmax) it ix =
          resAt (S.Hm0 (PFloat.real a) (PFloat.real (lastD S.f))) it ix) ∧
    (∀ (a : ℝ) (fmax : PFloat), 0 < a → a ≤ S.f.headD 0 →
      ∀ it ix, it < S.energy.length → ix < (S.energy.getD it []).length →
        resAt (S.Hm0 (PFloat.real a) fmax) it ix =
          resAt (S.Hm0 (PFloat.real (S.f.headD 0)) fmax) it ix) := by
  constructor
  · intro a fmax ha hge it ix hit hix
    rw [Spec1.Hm0, if_pos hu, Spec1.Hm0, if_pos hu,
      resAt_ok_cube _ _ _ _ _ hit hix, resAt_ok_cube _ _ _ _ _ hit hix]
    have hrow : S.energy.getD it [] ∈ S.energy := getD_mem _ _ _ hit
    have hc : (S.energy.getD it []).getD ix [] ∈ S.energy.getD it [] :=
      getD_mem _ _ _ hix
    obtain ⟨h1, h2⟩ := hcell _ hrow _ hc
    rw [m0k_clamp_fmax S.f _ a fmax hf hfp hfne h1 h2 ha hge]
  · intro a fmax ha hle it ix hit hix
    rw [Spec1.Hm0, if_pos hu, Spec1.Hm0, if_pos hu,
      resAt_ok_cube _ _ _ _ _ hit hix, resAt_ok_cube _ _ _ _ _ hit hix]
    have hrow : S.energy.getD it [] ∈ S.energy := getD_mem _ _ _ hit
    have hc : (S.energy.getD it []).getD ix [] ∈ S.energy.getD it [] :=
      getD_mem _ _ _ hix
    obtain ⟨h1, h2⟩ := hcell _ hrow _ hc
    rw [m0k_clamp_fmin S.f _ a fmax hf hfp hfne h1 h2 ha hle]

/-- Witness for C10 at the concrete container: fmax = np.inf behaves as
fmax = 2 (the last sample) and fmin = 0.5 behaves as fmin = 1 (the first
sample). -/
theorem c10_witness :
    resAt (c7Spec1.Hm0 (PFloat.real 0.5) PFloat.inf) 0 0 =
        resAt (c7Spec1.Hm0 (PFloat.real 0.5) (PFloat.real (lastD c7Spec1.f))) 0 0 ∧
      resAt (c7Spec1.Hm0 (PFloat.real 0.5) PFloat.inf) 0 0 =
        resAt (c7Spec1.Hm0 (PFloat.real (c7Spec1.f.headD 0)) PFloat.inf) 0 0 := by
  have hcells : ∀ row ∈ c7Spec1.energy, ∀ E ∈ row,
      nonnegL E ∧ E.length = c7Spec1.f.length := by
    intro row hrow E hE
    simp only [c7Spec1, List.mem_cons, List.not_mem_nil, or_false] at hrow
    subst hrow
    simp only [List.mem_cons, List.not_mem_nil, or_false] at hE
    subst hE
    exact ⟨⟨by norm_num, by norm_num, trivial⟩, rfl⟩
  have h := c10_Hm0_out_of_band_clamping c7Spec1 (by decide)
    ⟨by norm_num, trivial⟩ ⟨by norm_num, by norm_num, trivial⟩ (by decide) hcells
  exact ⟨h.1 0.5 PFloat.inf (by norm_num) trivial 0 0
      (by norm_num [c7Spec1]) (by norm_num [c7Spec1]),
    h.2 0.5 PFloat.inf (by norm_num) (by norm_num [c7Spec1]) 0 0
      (by norm_num [c7Spec1]) (by norm_num [c7Spec1])⟩

/-! ### C6: parameter shapes produced by Spec0.from_Spec (corrected) -/

/-- Whether a reduction result is a successful (non-raising) one. -/
def exOk : Except String Spec0 → Bool
  | .ok _ => true
  | .error _ => false

theorem shape2?_mapcube (g : List ℝ → ℝ) (E : List (List (List ℝ)))
    (nxy : Nat) (hne : E ≠ []) (hrows : ∀ a ∈ E, a.length = nxy) :
    (PyVal.arr2 (E.map (fun row => row.map g))).shape2? =
      some (E.length, nxy) := by
  cases E with
  | nil => exact absurd rfl hne
  | cons a t =>
      have ha : a.length = nxy := hrows a (by simp)
      rw [PyVal.shape2?]
      rw [if_pos]
      · simp only [List.map_cons, List.headD_cons, List.length_map,
          List.length_cons, ha]
      · apply List.all_eq_true.mpr
        intro x hx
        simp only [List.map_cons, List.headD_cons, List.length_map] at hx ⊢
        rcases List.mem_cons.mp hx with h | h
        · subst h
          simp [List.length_map, ha]
        · obtain ⟨row, hrow, rfl⟩ := List.mem_map.mp h
          have : row.length = nxy := hrows row (List.mem_cons_of_mem a hrow)
          simp [List.length_map, this, ha]

theorem Spec2_Tp_ok_isNum (S : Spec2) (m : List String) (v : PyVal)
    (hu : S.energy_units.take 9 = "m2/Hz/deg")
    (h : S.Tp = (m, Except.ok v)) : v.isNum = true := by
  rw [Spec2.Tp, if_pos hu] at h
  by_cases hidx : S.TpIdx < S.f.length
  · rw [dif_pos hidx] at h
    simp only [Prod.mk.injEq, Except.ok.injEq] at h
    rw [← h.2]
    rfl
  · rw [dif_neg hidx] at h
    simp only [Prod.mk.injEq] at h
    exact absurd h.2 (by simp)

theorem Spec2_pdir_ok_isNum (S : Spec2) (m : List String) (v : PyVal)
    (hu : S.energy_units.take 9 = "m2/Hz/deg")
    (h : S.pdir = (m, Except.ok v)) : v.isNum = true := by
  rw [Spec2.pdir, if_pos hu] at h
  by_cases hidx : S.pdirIdx < S.direction.length
  · rw [dif_pos hidx] at h
    simp only [Prod.mk.injEq, Except.ok.injEq] at h
    rw [← h.2]
    rfl
  · rw [dif_neg hidx] at h
    simp only [Prod.mk.injEq] at h
    exact absurd h.2 (by simp)

theorem stepE_ok {α β : Type} (m : List String) (v : α)
    (k : α → List String × Except String β) :
    stepE (m, Except.ok v) k = (m ++ (k v).1, (k v).2) := rfl

theorem stepE_error {α β : Type} (m : List String) (e : String)
    (k : α → List String × Except String β) :
    stepE (m, Except.error e) k = (m, Except.error e) := rfl

/-- C6 amended: when Spec0.from_Spec succeeds on a rank-2 container, the
populated Hs, Tm01 and Tm02 are (nt, nxy) arrays, but Tp and pdir are single
scalars obtained from a flattened argmax (they do not share the (nt, nxy)
shape), ms keeps its construction default; and on a rank-1 container
from_Spec always raises, because Spec1 has no pdir method. -/
theorem c6_from_Spec_parameter_shapes :
    (∀ (S : Spec2) (P : Spec0) (msgs : List String) (nt nxy : Nat),
        S.energy_units.take 9 = "m2/Hz/deg" → S.energy ≠ [] →
        S.energy.length = nt → (∀ a ∈ S.energy, a.length = nxy) →
        Spec0.from_Spec2 S = (msgs, Except.ok P) →
        P.Hs.shape2? = some (nt, nxy) ∧ P.Tm01.shape2? = some (nt, nxy) ∧
          P.Tm02.shape2? = some (nt, nxy) ∧ P.Tp.isNum = true ∧
          P.pdir.isNum = true ∧ P.ms = PyVal.arr2 [[]]) ∧
    (∀ S1 : Spec1, exOk (Spec0.from_Spec1 S1).2 = false) := by
  constructor
  · intro S P msgs nt nxy hu hne hnt hnxy hok
    have hs_len : S.spec1.length = nt := by
      rw [Spec2.spec1, List.length_map]
      exact hnt
    have hs_ne : S.spec1 ≠ [] := by
      intro hcontra
      apply hne
      rw [Spec2.spec1] at hcontra
      exact List.map_eq_nil_iff.mp hcontra
    have hs_rows : ∀ r ∈ S.spec1, r.length = nxy := by
      intro r hr
      obtain ⟨a, ha, hr_eq⟩ := List.mem_map.mp hr
      rw [← hr_eq, List.length_map]
      exact hnxy a ha
    have e1 : S.Hm0 (PFloat.real 0) PFloat.inf =
        ([], .ok (.arr2 (S.spec1.map (fun row => row.map (fun Ef =>
          4 * Real.sqrt (m0k S.f Ef (PFloat.real 0) PFloat.inf)))))) := by
      rw [Spec2.Hm0, if_pos hu]
    have e3 : S.Tm01 = ([], .ok (.arr2 (S.spec1.map (fun row =>
        row.map (fun Ef => Tm01k S.f Ef))))) := by
      rw [Spec2.Tm01, if_pos hu]
    have e4 : S.Tm02 = ([], .ok (.arr2 (S.spec1.map (fun row =>
        row.map (fun Ef => Tm02k S.f Ef))))) := by
      rw [Spec2.Tm02, if_pos hu]
    rw [Spec0.from_Spec2, e1, stepE_ok] at hok
    rcases hTp : S.Tp with ⟨tpm, tpres⟩
    rw [hTp] at hok
    cases tpres with
    | error e =>
        rw [stepE_error] at hok
        simp at hok
    | ok tpv =>
        rw [stepE_ok] at hok
        rw [e3, stepE_ok] at hok
        rw [e4, stepE_ok] at hok
        rcases hpd : S.pdir with ⟨pdm, pdres⟩
        rw [hpd] at hok
        cases pdres with
        | error e =>
            rw [stepE_error] at hok
            simp at hok
        | ok pdv =>
            rw [stepE_ok] at hok
            simp only [Prod.mk.injEq, Except.ok.injEq] at hok
            obtain ⟨hm, hP⟩ := hok
            subst hP
            refine ⟨?_, ?_, ?_, ?_, ?_, rfl⟩
            · show (PyVal.arr2 (S.spec1.map (fun row => row.map (fun Ef =>
                4 * Real.sqrt (m0k S.f Ef (PFloat.real 0) PFloat.inf))))).shape2?
                  = some (nt, nxy)
              rw [shape2?_mapcube _ _ nxy hs_ne hs_rows, hs_len]
            · show (PyVal.arr2 (S.spec1.map (fun row => row.map (fun Ef =>
                Tm01k S.f Ef)))).shape2? = some (nt, nxy)
              rw [shape2?_mapcube _ _ nxy hs_ne hs_rows, hs_len]
            · show (PyVal.arr2 (S.spec1.map (fun row => row.map (fun Ef =>
                Tm02k S.f Ef)))).shape2? = some (nt, nxy)
              rw [shape2?_mapcube _ _ nxy hs_ne hs_rows, hs_len]
            · exact Spec2_Tp_ok_isNum S tpm tpv hu hTp
            · exact Spec2_pdir_ok_isNum S pdm pdv hu hpd
  · intro S1
    rw [Spec0.from_Spec1]
    rcases h1 : S1.Hm0 (PFloat.real 0) PFloat.inf with ⟨m1, r1⟩
    cases r1 with
    | error e => rw [stepE_error]; rfl
    | ok v1 =>
        rw [stepE_ok]
        rcases h2 : S1.Tp with ⟨m2, r2⟩
        cases r2 with
        | error e => rw [stepE_error]; rfl
        | ok v2 =>
            rw [stepE_ok]
            rcases h3 : S1.Tm01 with ⟨m3, r3⟩
            cases r3 with
            | error e => rw [stepE_error]; rfl
            | ok v3 =>
                rw [stepE_ok]
                rcases h4 : S1.Tm02 with ⟨m4, r4⟩
                cases r4 with
                | error e => rw [stepE_error]; rfl
                | ok v4 => rw [stepE_ok]; rfl

/-- A concrete rank-2 container with two time steps for C6. -/
def c6Spec2 : Spec2 :=
  { f := [1], direction := [0], t := [0, 0], x := [0], y := [0], lon := [0],
    lat := [0], source := "", energy_units := "m2/Hz/deg",
    direction_units := "degrees_north", energy := [[[[1]]], [[[1]]]] }

theorem c6Spec2_Hm0 : c6Spec2.Hm0 (PFloat.real 0) PFloat.inf =
    ([], Except.ok (PyVal.arr2 [[0], [0]])) := by
  rw [Spec2.Hm0, if_pos (by decide)]
  simp [Spec2.spec1, c6Spec2, trapz, m0k]

theorem c6Spec2_TpIdx : c6Spec2.TpIdx = 0 := by
  simp [Spec2.TpIdx, c6Spec2, argmaxIdx, argmaxAux, listMax]

theorem c6Spec2_Tp : c6Spec2.Tp = ([], Except.ok (PyVal.num 1)) := by
  have hlt : c6Spec2.TpIdx < c6Spec2.f.length := by
    rw [c6Spec2_TpIdx]
    decide
  rw [Spec2.Tp, if_pos (by decide), dif_pos hlt]
  simp [List.get_eq_getElem, c6Spec2_TpIdx, c6Spec2]

theorem c6Spec2_Tm01 : c6Spec2.Tm01 = ([], Except.ok (PyVal.arr2 [[0], [0]])) := by
  rw [Spec2.Tm01, if_pos (by decide)]
  simp [Spec2.spec1, c6Spec2, trapz, Tm01k]

theorem c6Spec2_Tm02 : c6Spec2.Tm02 = ([], Except.ok (PyVal.arr2 [[0], [0]])) := by
  rw [Spec2.Tm02, if_pos (by decide)]
  simp [Spec2.spec1, c6Spec2, trapz, Tm02k]

theorem c6Spec2_pdirIdx : c6Spec2.pdirIdx = 0 := by
  simp [Spec2.pdirIdx, c6Spec2, argmaxIdx, argmaxAux, colMax]

theorem c6Spec2_pdir : c6Spec2.pdir = ([], Except.ok (PyVal.num 0)) := by
  have hlt : c6Spec2.pdirIdx < c6Spec2.direction.length := by
    rw [c6Spec2_pdirIdx]
    decide
  rw [Spec2.pdir, if_pos (by decide), dif_pos hlt]
  simp [List.get_eq_getElem, c6Spec2_pdirIdx, c6Spec2]

/-- The rank-0 aggregate that from_Spec produces from `c6Spec2`. -/
def c6P : Spec0 :=
  { source := "", x := [0], y := [0], lon := [0], lat := [0], t := [0, 0],
    Hs := PyVal.arr2 [[0], [0]], Tp := PyVal.num 1,
    Tm01 := PyVal.arr2 [[0], [0]], Tm02 := PyVal.arr2 [[0], [0]],
    pdir := PyVal.num 0, ms := PyVal.arr2 [[]] }

theorem c6Spec2_from_Spec : Spec0.from_Spec2 c6Spec2 = ([], Except.ok c6P) := by
  rw [Spec0.from_Spec2, c6Spec2_Hm0, stepE_ok, c6Spec2_Tp, stepE_ok,
    c6Spec2_Tm01, stepE_ok, c6Spec2_Tm02, stepE_ok, c6Spec2_pdir, stepE_ok]
  rfl

/-- C6 counterexample: on a (nt, nxy) = (2, 1) rank-2 container, from_Spec
populates Hs as a (2, 1) array but Tp as a bare scalar with no 2-D shape, so
the populated parameters do not all share the leading shape (nt, nxy). -/
theorem c6_counterexample :
    (Spec0.from_Spec2 c6Spec2).2.map (fun P => (P.Hs.shape2?, P.Tp.shape2?)) =
        Except.ok (some (2, 1), (Option.none : Option (Nat × Nat))) ∧
      (some (2, 1) : Option (Nat × Nat)) ≠ Option.none := by
  constructor
  · rw [c6Spec2_from_Spec]
    rfl
  · decide

/-- Witness for C6 (amended) at the concrete containers. -/
theorem c6_witness :
    (c6P.Hs.shape2? = some (2, 1) ∧ c6P.Tm01.shape2? = some (2, 1) ∧
      c6P.Tm02.shape2? = some (2, 1) ∧ c6P.Tp.isNum = true ∧
      c6P.pdir.isNum = true ∧ c6P.ms = PyVal.arr2 [[]]) ∧
    exOk (Spec0.from_Spec1 badUnitsSpec1).2 = false :=
  ⟨c6_from_Spec_parameter_shapes.1 c6Spec2 c6P [] 2 1 (by decide)
      (by simp [c6Spec2]) rfl
      (by
        intro a ha
        simp only [c6Spec2, List.mem_cons, List.not_mem_nil, or_false] at ha
        rcases ha with h | h <;> subst h <;> rfl)
      c6Spec2_from_Spec,
   c6_from_Spec_parameter_shapes.2 badUnitsSpec1⟩

/-- The rank-1 container produced by an all-default construction. -/
def defaultSpec1 : Spec1 :=
  { f := [0], t := [0], x := [0], y := [0], lon := [0], lat := [0],
    source := "", energy_units := "m2/Hz/deg",
    direction_units := "degrees_north", spreading_units := "degr",
    energy := cube3 1 1 1 0, direction := cube3 1 1 1 0,
    spreading := cube3 1 1 1 0 }

theorem mkSpec1_default :
    mkSpec1 [0] [0] [0] [0] Option.none Option.none Option.none Option.none =
      Except.ok defaultSpec1 := rfl

/-- The rank-2 container produced by an all-default construction. -/
def defaultSpec2 : Spec2 :=
  { f := [0], direction := [0], t := [0], x := [0], y := [0], lon := [0],
    lat := [0], source := "", energy_units := "m2/Hz/deg",
    direction_units := "degrees_north", energy := cube4 1 1 1 1 0 }

theorem mkSpec2_default :
    mkSpec2 [0] [0] [0] [0] [0] Option.none Option.none =
      Except.ok defaultSpec2 := rfl

/-- Witness for C9 (amended) at the default-constructed containers. -/
theorem c9_witness :
    defaultSpec1.energy_units = "m2/Hz/deg" ∧
      (defaultSpec1.from_jonswap 1 1 0 2 9.81 3.3 JMethod.Yamaguchi true
        0.07 0.09).energy_units = "m2/Hz" ∧
      defaultSpec2.energy_units = "m2/Hz/deg" ∧
      (defaultSpec2.from_jonswap 1 1 0 2 9.81 3.3 JMethod.Yamaguchi true
        0.07 0.09).energy_units = "m2/Hz/deg" ∧
      defaultSpec1.Tm01 =
        (["unknown units " ++ defaultSpec1.energy_units], Except.ok PyVal.pynone) :=
  ⟨c9_units_tags.1 [0] [0] [0] [0] Option.none Option.none Option.none
      defaultSpec1 mkSpec1_default,
   c9_units_tags.2.1 defaultSpec1 1 1 0 2 9.81 3.3 JMethod.Yamaguchi true
     0.07 0.09,
   c9_units_tags.2.2.1 [0] [0] [0] [0] [0] Option.none defaultSpec2
     mkSpec2_default,
   c9_units_tags.2.2.2.1 defaultSpec2 1 1 0 2 9.81 3.3 JMethod.Yamaguchi true
     0.07 0.09,
   c9_units_tags.2.2.2.2 defaultSpec1 rfl⟩
